import Mathlib

/-!
Shallow embedding of the three spreadsheet-to-JSON rule converters of the
rulespilot repository (scripts/convertLUMExcelToJSON.py,
scripts/convertTATExcelToJSON.py, scripts/convertWorkflowExcelToJSON.py).

Strings are modelled as lists of characters (`Str`).  A spreadsheet cell is
`Option`-valued: `none` models a missing value (pandas `NaN` / Python `None`);
`some` carries the cell content.  For the TAT and IBX-workflow converters,
whose cells may be numbers as well as text, a cell value is the variant
`CellV` (text or integer; only integer-valued numeric cells are modelled,
which is all the claims need).  Fallible Python code (functions that can
raise) is modelled with `Except`.
-/

/-- Strings as explicit character lists. -/
abbrev Str := List Char

deriving instance DecidableEq for Except

/-- Character list of a string literal. -/
def strL (s : String) : Str := s.data

/-- Python `str.strip()` whitespace set: space, tab, newline, carriage
return, vertical tab, form feed. -/
def isWS (c : Char) : Bool :=
  c = ' ' || c = '\t' || c = '\n' || c = '\r' || c = '\x0b' || c = '\x0c'

/-- Lower-case a character list (Python `str.lower()`, ASCII range). -/
def lowerS (s : Str) : Str := s.map Char.toLower

/-- Python `str.strip()`: drop whitespace from both ends. -/
def trimL (s : Str) : Str :=
  ((s.dropWhile isWS).reverse.dropWhile isWS).reverse

/-- Python `str.split(sep)` for a one-character separator: `"".split` gives
`[""]`, separators at the ends give empty parts. -/
def splitOnCh (sep : Char) : Str → List Str
  | [] => [[]]
  | c :: rest =>
    let r := splitOnCh sep rest
    if c = sep then [] :: r
    else
      match r with
      | [] => [[c]]
      | h :: t => (c :: h) :: t

/-- Python `str.split()` with no argument: split on whitespace runs,
dropping empty parts.  `cur` accumulates the current word in reverse. -/
def splitWSGo (cur : Str) : Str → List Str
  | [] => if cur = [] then [] else [cur.reverse]
  | c :: rest =>
    if isWS c then
      if cur = [] then splitWSGo [] rest else cur.reverse :: splitWSGo [] rest
    else splitWSGo (c :: cur) rest

def splitWS (s : Str) : List Str := splitWSGo [] s

/-- Every character is whitespace (Python `\s*$` on the remainder). -/
def allWS (s : Str) : Bool := s.all isWS

/-- Decimal digit run to a natural number. -/
def digitsVal (l : Str) : Nat :=
  l.foldl (fun a c => a * 10 + (c.toNat - '0'.toNat)) 0

/-- Python `re.search(r'(\d+)', s)`: value of the first contiguous digit
run, if any. -/
def extractFirstNat : Str → Option Nat
  | [] => none
  | c :: rest =>
    if c.isDigit then some (digitsVal ((c :: rest).takeWhile Char.isDigit))
    else extractFirstNat rest

/-- Python `str.zfill(w)` for non-negative digit strings. -/
def zfill (w : Nat) (s : Str) : Str :=
  if w ≤ s.length then s else List.replicate (w - s.length) '0' ++ s

/-- Join a list of strings with a separator (Python `sep.join`). -/
def joinSep (sep : Str) (l : List Str) : Str := List.intercalate sep l

/-- Python `str.title()` for ASCII text: a letter after a non-letter is
upper-cased, a letter after a letter is lower-cased. -/
def titleGo : Bool → Str → Str
  | _, [] => []
  | prevAlpha, c :: rest =>
    (if c.isAlpha then (if prevAlpha then c.toLower else c.toUpper) else c) ::
      titleGo c.isAlpha rest

def titleL (s : Str) : Str := titleGo false s

/-- Decimal representation of a natural number. -/
def natRepr (n : Nat) : Str := (Nat.repr n).data

namespace LUM

/-- A cell of the LUM spreadsheet: `none` is pandas `NaN`. -/
abbrev Cell := Option Str

/-- FIELD_MAPPINGS of convertLUMExcelToJSON.py (Excel field name to
application field name, including the trailing/double-space variants). -/
def FIELD_MAPPINGS : List (Str × Str) :=
  [ (strL "Outcome Status", strL "REVIEW_OUTCOME_STATUS"),
    (strL "Outcome Status ", strL "REVIEW_OUTCOME_STATUS"),
    (strL "Outcome Reason", strL "REVIEW_OUTCOME_STATUS_REASON"),
    (strL "Outcome  Reason", strL "REVIEW_OUTCOME_STATUS_REASON"),
    (strL "Review Type", strL "SERVICE_REVIEW_TYPE"),
    (strL "Member Line of Business", strL "ENROLLMENT_LINE_OF_BUSINESS"),
    (strL "Request Type", strL "REQUEST_TYPE"),
    (strL "Urgency", strL "REQUEST_URGENCY"),
    (strL "Urgency ", strL "REQUEST_URGENCY"),
    (strL "Treatment Type", strL "SERVICE_TREATMENT_TYPE"),
    (strL "Member State", strL "MEMBER_STATE"),
    (strL "Member Client", strL "MEMBER_CLIENT"),
    (strL "Plan", strL "ENROLLMENT_PLAN") ]

/-- OPERATOR_MAPPINGS of convertLUMExcelToJSON.py. -/
def OPERATOR_MAPPINGS : List (Str × Str) :=
  [ (strL "is any of", strL "IN"),
    (strL "is none of", strL "NOT_IN"),
    (strL "is", strL "EQUALS"),
    (strL "is not", strL "NOT_EQUALS") ]

/-- Action-section sentinel labels that stop the triplet scan. -/
def sentinels : List Str :=
  [strL "action", strL "task type", strL "set task due to", strL "task reason"]

/-- normalize_field_name: empty string for a missing cell, else strip. -/
def normalize_field_name (c : Cell) : Str :=
  match c with
  | none => []
  | some s => trimL s

/-- split_multi_values: empty list for a missing cell; otherwise strip, and
if the stripped text contains a line break, split on line breaks, strip the
parts and drop the empty ones, else a single-element list. -/
def split_multi_values (c : Cell) : List Str :=
  match c with
  | none => []
  | some v =>
    let s := trimL v
    if s.contains '\n' then ((splitOnCh '\n' s).map trimL).filter (· ≠ [])
    else [s]

/-- One normalized criterion (a standardFieldCriteria entry). -/
structure Criterion where
  operator : Str
  field : Str
  values : List Str
deriving DecidableEq, Repr

/-- The loop of parse_criteria_triplets, driven by the number `rem` of cells
remaining before the exclusive bound (`rem = e - idx`): the Python loop
stops when `idx + 2 >= end_idx`, i.e. when fewer than three cells remain. -/
def parseTripletsGo (row : List Cell) : Nat → Nat → Except Str (List Criterion)
  | _, 0 => .ok []
  | _, 1 => .ok []
  | _, 2 => .ok []
  | idx, rem + 3 =>
    let field_name := normalize_field_name (row.getD idx none)
    let op := normalize_field_name (row.getD (idx + 1) none)
    let value := row.getD (idx + 2) none
    if field_name = [] ∨ lowerS field_name ∈ sentinels then .ok []
    else
      match FIELD_MAPPINGS.lookup field_name with
      | none => .error (strL "Unknown field name: " ++ field_name)
      | some mf =>
        match OPERATOR_MAPPINGS.lookup op with
        | none => .error (strL "Unknown operator: " ++ op)
        | some mo =>
          match parseTripletsGo row (idx + 3) rem with
          | .error err => .error err
          | .ok rest =>
            let values := split_multi_values value
            .ok (if values = [] then rest else ⟨mo, mf, values⟩ :: rest)

/-- parse_criteria_triplets: scan (field, operator, value) triplets from
`idx` up to the exclusive bound `e`, stopping when fewer than three cells
remain, or on an empty field name, or on an action-section sentinel.  An
unmapped field or operator is an error (Python `ValueError`). -/
def parse_criteria_triplets (row : List Cell) (idx e : Nat) :
    Except Str (List Criterion) :=
  parseTripletsGo row idx (e - idx)

/-- departmentRouting action parameters. -/
structure DeptRouting where
  departmentCode : Str
deriving DecidableEq, Repr

/-- createTask action parameters (LUM shape). -/
structure CreateTask where
  taskType : Str
  taskReason : Str
  daysUntilDue : Nat
deriving DecidableEq, Repr

/-- The actions dictionary a LUM row can produce. -/
structure Actions where
  departmentRouting : Option DeptRouting := none
  createTask : Option CreateTask := none
deriving DecidableEq, Repr

/-- The scanning loop of parse_actions for the "Task Type" branch: walk the
cells after the action column, treating recognized header labels as
(key, value) pairs and assigning unrecognized non-empty cells positionally
to whichever of task-type / task-reason is still unset.  The empty string
stands for Python's falsy "unset" (both `None` and `''`). -/
def scanTask : List Cell → Str → Str → Option Nat → Str × Str × Option Nat
  | [], tt, tr, d => (tt, tr, d)
  | [_], tt, tr, d => (tt, tr, d)
  | c :: next :: rest, tt, tr, d =>
    let cv := normalize_field_name c
    if cv = [] then scanTask (next :: rest) tt tr d
    else if cv = strL "Task Type" then
      scanTask rest (normalize_field_name next) tr d
    else if cv = strL "Task Reason" then
      scanTask rest tt (normalize_field_name next) d
    else if cv = strL "Set Task Due to" then
      scanTask rest tt tr
        (match extractFirstNat (normalize_field_name next) with
         | some n => some n
         | none => d)
    else if tt = [] then scanTask (next :: rest) cv tr d
    else if tr = [] then scanTask (next :: rest) tt cv d
    else scanTask (next :: rest) tt tr d

/-- parse_actions: keyword-driven action decoding starting at the action
column.  "Reassign to" consumes the next cell as a department code;
"Task Type" triggers the scanning loop, with taskReason defaulting to
"Review Required" and daysUntilDue defaulting to 3 (Python `x or default`
semantics: an extracted day count of 0 also falls back to 3). -/
def parse_actions (row : List Cell) (start : Nat) : Actions :=
  let action_type := normalize_field_name (row.getD start none)
  if action_type = strL "Reassign to" then
    if start + 1 < row.length then
      let dept := normalize_field_name (row.getD (start + 1) none)
      if dept = [] then {} else { departmentRouting := some ⟨dept⟩ }
    else {}
  else if action_type = strL "Task Type" then
    let r := scanTask (row.drop (start + 1)) [] [] none
    if r.1 = [] then {}
    else
      { createTask := some
          ⟨r.1,
           (if r.2.1 = [] then strL "Review Required" else r.2.1),
           (match r.2.2 with
            | some n => if n = 0 then 3 else n
            | none => 3)⟩ }
  else {}

/-- One rendered criterion of generate_rule_description. -/
def renderCriterion (c : Criterion) : Str :=
  let field := titleL (c.field.map (fun ch => if ch = '_' then ' ' else ch))
  let operator_text := if c.operator = strL "IN" then strL "is" else strL "is not"
  let values_text :=
    joinSep (strL ", ") (c.values.take 2) ++
      (if 2 < c.values.length then strL "..." else [])
  field ++ [' '] ++ operator_text ++ [' '] ++ values_text

/-- generate_rule_description: first three criteria joined with "; ", the
actions rendered as "Route to X" / "Create T task" joined with " & ",
combined with an arrow. -/
def generate_rule_description (criteria : List Criterion) (actions : Actions) :
    Str :=
  let criteria_summary := joinSep (strL "; ") ((criteria.take 3).map renderCriterion)
  let action_parts :=
    (match actions.departmentRouting with
     | some d => [strL "Route to " ++ d.departmentCode]
     | none => []) ++
    (match actions.createTask with
     | some t => [strL "Create " ++ t.taskType ++ strL " task"]
     | none => [])
  criteria_summary ++ strL " → " ++ joinSep (strL " & ") action_parts

/-- One output rule of the LUM converter. -/
structure Rule where
  code : Str
  ruleDesc : Str
  standardFieldCriteria : List Criterion
  customFieldCriteria : List Criterion
  isActive : Bool
  weight : Int
  actions : Actions
deriving DecidableEq, Repr

/-- The row loop of convert_excel_to_json: a row whose decoded criteria
list is empty is skipped; a decoding error aborts the whole batch (the
Python script exits with status 1 before writing any output, which the
`Except.error` result models); otherwise a rule is assembled with the
sequential LUM code, the generated description, isActive true and
weight 100.  `i` is the 0-based index of the first row, `b` the action
column index. -/
def convertRows : List (List Cell) → Nat → Nat → Except Str (List Rule)
  | [], _, _ => .ok []
  | r :: rest, i, b =>
    match parse_criteria_triplets r 0 b with
    | .error e => .error e
    | .ok [] => convertRows rest (i + 1) b
    | .ok criteria =>
      match convertRows rest (i + 1) b with
      | .error e => .error e
      | .ok rs =>
        let actions := parse_actions r b
        .ok ({ code := strL "LUM" ++ zfill 3 (natRepr (i + 1)),
               ruleDesc := generate_rule_description criteria actions,
               standardFieldCriteria := criteria,
               customFieldCriteria := [],
               isActive := true,
               weight := 100,
               actions := actions } :: rs)

/-- convert_excel_to_json restricted to its row loop (the action-column
detection is upstream and the boundary index is passed in). -/
def convert_excel_to_json (rows : List (List Cell)) (b : Nat) :
    Except Str (List Rule) :=
  convertRows rows 0 b

end LUM

/-- A spreadsheet cell value for the name-keyed converters: text or an
integer-valued number (integer-valued numeric cells are all the claims
need; general floats are only touched by the workflow converter's `Days`
parsing, modelled on decimal literals below). -/
inductive CellV where
  | str (s : Str)
  | num (n : Int)
deriving DecidableEq, Repr

/-- Python `str(x)` for a cell value. -/
def pyStr : CellV → Str
  | .str s => s
  | .num n => (toString n).data

/-- Tail of a Python digit run with underscore grouping: after an initial
digit, digits with single underscores strictly between digits. -/
def uRunGo : Str → Bool
  | [] => true
  | ['_'] => false
  | '_' :: c :: rest => c.isDigit && uRunGo rest
  | c :: rest => c.isDigit && uRunGo rest

/-- A non-empty Python digit run with underscore grouping (`1_0` is valid,
`_1`, `1_` and `1__0` are not). -/
def uRun : Str → Bool
  | [] => false
  | c :: rest => c.isDigit && uRunGo rest

/-- Python `int(x)`: the integer itself for a number; for text, strip and
parse an optional sign followed by an underscore-grouped digit run
(`int("1_0")` is 10), raising `ValueError` otherwise (in particular
`int("3.0")` raises). -/
def pyInt : CellV → Except Str Int
  | .num n => .ok n
  | .str s =>
    let t := trimL s
    let core := if t.headD ' ' = '+' ∨ t.headD ' ' = '-' then t.tail else t
    if uRun core then
      .ok (if t.headD ' ' = '-' then -(digitsVal (core.filter (· ≠ '_')) : Int)
           else (digitsVal (core.filter (· ≠ '_')) : Int))
    else .error (strL "invalid literal for int")

/-- The outcome of Python `int(float(x))` under
`except (ValueError, TypeError)`: a value, a caught parse failure
(`ValueError`/`TypeError`, including `float` rejecting the text and
`int(nan)`), or the uncaught `OverflowError` that `int(±inf)` raises —
the latter escapes the handler and is fatal for the whole run. -/
inductive PyNumRes where
  | val (n : Int)
  | fail
  | overflow
deriving DecidableEq, Repr

/-- Python `int(float(x))` as used by the workflow converter: a number
passes through; text is stripped and parsed as an optionally signed
`inf`/`infinity` (OverflowError, uncaught), `nan` (ValueError, caught) or
decimal literal with underscore grouping, truncated toward zero;
exponent forms are not modelled. -/
def pyFloatInt : CellV → PyNumRes
  | .num n => .val n
  | .str s =>
    let t := trimL s
    let neg := t.headD ' ' = '-'
    let core := if t.headD ' ' = '+' ∨ t.headD ' ' = '-' then t.tail else t
    if lowerS core = strL "inf" ∨ lowerS core = strL "infinity" then .overflow
    else if lowerS core = strL "nan" then .fail
    else
      let ip := core.takeWhile (· ≠ '.')
      let rest := core.dropWhile (· ≠ '.')
      let fracOk : Bool :=
        match rest with
        | '.' :: fr => fr.isEmpty || uRun fr
        | [] => true
        | _ => false
      if fracOk && (ip.isEmpty || uRun ip) &&
          !(ip.isEmpty && decide (rest.length ≤ 1)) then
        .val (if neg then -(digitsVal (ip.filter (· ≠ '_')) : Int)
              else (digitsVal (ip.filter (· ≠ '_')) : Int))
      else .fail

namespace TAT

/-- A named-column row: every column of the sheet appears with its (possibly
missing) value; pandas gives every row every column. -/
abbrev Row := List (String × Option CellV)

/-- Python `row[k]` (KeyError if the column is absent). -/
def rowIdx (row : Row) (k : String) : Except Str (Option CellV) :=
  match row.lookup k with
  | none => .error (strL "KeyError")
  | some v => .ok v

/-- Python `row.get(k)` (`None`, i.e. a missing value, if the column is
absent). -/
def rowGet (row : Row) (k : String) : Option CellV :=
  match row.lookup k with
  | none => none
  | some v => v

/-- FIELD_MAPPINGS of convertTATExcelToJSON.py (iteration order is the
insertion order). -/
def FIELD_MAPPINGS : List (String × Str) :=
  [ ("TX_TYPE", strL "SERVICE_TREATMENT_TYPE"),
    ("URGENCY", strL "REQUEST_URGENCY"),
    ("REVIEW_TYPE", strL "SERVICE_REVIEW_TYPE"),
    ("REQUEST_TYPE", strL "REQUEST_TYPE"),
    ("CLIENT", strL "MEMBER_CLIENT"),
    ("LOB", strL "ENROLLMENT_LINE_OF_BUSINESS"),
    ("PLAN_TYPE", strL "ENROLLMENT_PLAN"),
    ("TX_SETTING", strL "REQUEST_TREATMENT_SETTING"),
    ("STATUS", strL "REVIEW_OUTCOME_STATUS"),
    ("STATUS_REASON", strL "REVIEW_OUTCOME_STATUS_REASON") ]

/-- UNITS_MAPPING of convertTATExcelToJSON.py. -/
def UNITS_MAPPING : List (Str × Str) :=
  [ (strL "HR", strL "HOURS"),
    (strL "BD", strL "BUSINESS_DAYS"),
    (strL "CD", strL "CALENDAR_DAYS") ]

/-- SOURCE_DATE_MAPPING of convertTATExcelToJSON.py. -/
def SOURCE_DATE_MAPPING : List (Str × Str) :=
  [ (strL "NOTIFYDATE", strL "NOTIFICATION_DATE_TIME"),
    (strL "STATUSCHANGEDATE", strL "STATUS_CHANGE_DATE_TIME"),
    (strL "REQUESTDATE", strL "REQUEST_DATE_TIME"),
    (strL "RECEIPTDATE", strL "RECEIPT_DATE_TIME"),
    (strL "RECEIVEDDATE", strL "RECEIVED_DATE_TIME") ]

/-- Python `dict.get(key, default)` where the key is a raw cell value: only
a text value can hit a string-keyed mapping table. -/
def cellLookupD (m : List (Str × Str)) (c : Option CellV) (dflt : Str) : Str :=
  match c with
  | some (.str s) =>
    match m.lookup s with
    | some v => v
    | none => dflt
  | _ => dflt

/-- is_valid_value of convertTATExcelToJSON.py: missing values are invalid;
a string is invalid when it strips to `*`, `[NULL]` or the empty string;
every other value (numbers included) is valid. -/
def is_valid_value (c : Option CellV) : Bool :=
  match c with
  | none => false
  | some (.str s) =>
    ¬(trimL s = strL "*" ∨ trimL s = strL "[NULL]" ∨ trimL s = [])
  | some (.num _) => true

/-- parse_holiday_dates: replace commas by spaces, split on whitespace,
drop the `*` and `[NULL]` tokens (non-text values give an empty list). -/
def parse_holiday_dates (c : Option CellV) : List Str :=
  if ¬is_valid_value c then []
  else
    match c with
    | some (.str s) =>
      (splitWS (s.map (fun ch => if ch = ',' then ' ' else ch))).filter
        (fun d => d ≠ strL "*" ∧ d ≠ strL "[NULL]")
    | _ => []

/-- A TAT criterion (TAT criteria carry no operator). -/
structure Criterion where
  field : Str
  values : List Str
deriving DecidableEq, Repr

/-- One output rule of the TAT converter (TATRuleExport). -/
structure Rule where
  ruleDesc : Option CellV
  isActive : Bool
  weight : Int
  units : Int
  unitsOfMeasure : Str
  sourceDateTimeField : Str
  standardFieldCriteria : List Criterion
  dueTime : Option Str
  holidayDates : List Str
  holidayCategory : Option Str
  holidayOffset : Option Int
  clinicalsRequestedResponseThresholdHours : Option Int
  dateOperator : Option Str
  autoExtend : Bool
  extendStatusReason : Option Str
deriving DecidableEq, Repr

/-- convert_row_to_tat_rule: assemble one TATRuleExport object from a
named-column row; any raised exception (KeyError, ValueError from `int`)
is the `Except.error` case, which makes the caller skip the row. -/
def convert_row_to_tat_rule (row : Row) : Except Str Rule := do
  let ruleDesc ← rowIdx row "DUE_DATE_AUTO_CALC_RULE_DESC"
  let active ← rowIdx row "ACTIVE"
  let isActive := match active with
    | some (.num n) => n = 1
    | _ => false
  let wcell ← rowIdx row "WEIGHT"
  let weight ← match wcell with
    | none => pure (100 : Int)
    | some v => pyInt v
  let dcell ← rowIdx row "DUE_DATE"
  let units ← match dcell with
    | none => pure (72 : Int)
    | some v => pyInt v
  let ucell ← rowIdx row "DUE_DATE_UNITS"
  let unitsOfMeasure := cellLookupD UNITS_MAPPING ucell (strL "HOURS")
  let scell ← rowIdx row "DATE_TO_CALC_FROM"
  let sourceDateTimeField :=
    cellLookupD SOURCE_DATE_MAPPING scell (strL "NOTIFICATION_DATE_TIME")
  let dueTime :=
    if is_valid_value (rowGet row "DUE_DATE_TIME") then
      match rowGet row "DUE_DATE_TIME" with
      | some v =>
        let due_time := trimL (pyStr v)
        if due_time.contains ':' then
          match splitOnCh ':' due_time with
          | p0 :: p1 :: _ => some (zfill 2 p0 ++ [':'] ++ zfill 2 p1)
          | _ => none
        else none
      | none => none
    else none
  let skipHolidays := rowGet row "SKIP_HOLIDAY_DATES"
  let (holidayCategory, holidayDates) :=
    if is_valid_value skipHolidays then
      match skipHolidays with
      | some v =>
        let s := trimL (pyStr v)
        if s.any Char.isAlpha then (some s, [])
        else (none, parse_holiday_dates skipHolidays)
      | none => (none, [])
    else (none, [])
  let holidayOffset ←
    if is_valid_value (rowGet row "OFFSET_VALUE") then
      match rowGet row "OFFSET_VALUE" with
      | some v => do pure (some (← pyInt v))
      | none => pure none
    else pure none
  let dateOperator :=
    if is_valid_value (rowGet row "DATE_OPERATOR") then
      match rowGet row "DATE_OPERATOR" with
      | some v => some (trimL (pyStr v))
      | none => none
    else none
  let autoExtend : Bool :=
    is_valid_value (rowGet row "AUTO_EXTEND") &&
      (match rowGet row "AUTO_EXTEND" with
       | some (.num n) => n == 1
       | _ => false)
  let extendStatusReason :=
    if autoExtend && is_valid_value (rowGet row "EXTEND_STATUS_RSN") then
      match rowGet row "EXTEND_STATUS_RSN" with
      | some v => some (trimL (pyStr v))
      | none => none
    else none
  let criteria := FIELD_MAPPINGS.filterMap (fun p =>
    match row.lookup p.1 with
    | some c =>
      if is_valid_value c then
        match c with
        | some v => some ⟨p.2, [trimL (pyStr v)]⟩
        | none => none
      else none
    | none => none)
  pure { ruleDesc := ruleDesc,
         isActive := isActive,
         weight := weight,
         units := units,
         unitsOfMeasure := unitsOfMeasure,
         sourceDateTimeField := sourceDateTimeField,
         standardFieldCriteria := criteria,
         dueTime := dueTime,
         holidayDates := holidayDates,
         holidayCategory := holidayCategory,
         holidayOffset := holidayOffset,
         clinicalsRequestedResponseThresholdHours := none,
         dateOperator := dateOperator,
         autoExtend := autoExtend,
         extendStatusReason := extendStatusReason }

/-- The row loop of the TAT convert_excel_to_json: rows that convert
without an exception are appended; a raising row is logged and skipped. -/
def convert_excel_to_json (rows : List Row) : List Rule :=
  rows.filterMap (fun r => (convert_row_to_tat_rule r).toOption)

end TAT

namespace WF

/-- A named-column row of the IBX workflow sheet. -/
abbrev Row := List (String × Option CellV)

/-- Python `row.get(k)`. -/
def rowGet (row : Row) (k : String) : Option CellV :=
  match row.lookup k with
  | none => none
  | some v => v

/-- FIELD_MAPPINGS of convertWorkflowExcelToJSON.py. -/
def FIELD_MAPPINGS : List (Str × Str) :=
  [ (strL "Member client", strL "MEMBER_CLIENT"),
    (strL "Review Type", strL "SERVICE_REVIEW_TYPE"),
    (strL "Treatment type", strL "SERVICE_TREATMENT_TYPE"),
    (strL "Urgency", strL "REQUEST_URGENCY"),
    (strL "Outcome Status Reason", strL "REVIEW_OUTCOME_STATUS_REASON"),
    (strL "Request Bed Type", strL "REQUEST_TREATMENT_SETTING"),
    (strL "Source System", strL "REQUEST_ORIGINATING_SYSTEM_SOURCE"),
    (strL "CID", strL "ENROLLMENT_GROUP_ID"),
    (strL "Member Group ID", strL "ENROLLMENT_GROUP_ID"),
    (strL "Request Type", strL "REQUEST_TYPE"),
    (strL "Member State", strL "MEMBER_STATE"),
    (strL "Treatment Type", strL "SERVICE_TREATMENT_TYPE"),
    (strL "LOB", strL "ENROLLMENT_LINE_OF_BUSINESS"),
    (strL "Plan", strL "ENROLLMENT_PLAN"),
    (strL "Service Code", strL "SERVICE_CODE"),
    (strL "Diagnosis Code", strL "REQUEST_DIAGNOSIS_CODE"),
    (strL "Task Type", strL "REQUEST_CLASSIFICATION"),
    (strL "Task Reason", strL "REQUEST_STATUS"),
    (strL "Task Outcome", strL "REVIEW_OUTCOME_STATUS") ]

/-- OPERATOR_MAPPINGS of convertWorkflowExcelToJSON.py. -/
def OPERATOR_MAPPINGS : List (Str × Str) :=
  [ (strL "is", strL "EQUALS"),
    (strL "is not", strL "NOT_IN"),
    (strL "is in the group", strL "IN"),
    (strL "is not in the group", strL "NOT_IN") ]

/-- is_valid_value of convertWorkflowExcelToJSON.py: missing values are
invalid; a string is invalid when it strips to the empty string or
`(null)`; every other value is valid. -/
def is_valid_value (c : Option CellV) : Bool :=
  match c with
  | none => false
  | some (.str s) => ¬(trimL s = [] ∨ trimL s = strL "(null)")
  | some (.num _) => true

/-! The clause pattern of parse_rule_summary,
`(.+?)\s+(is not in the group|is in the group|is not|is)\s+['\"]?(.+?)['\"]?\s*$`
(with `re.IGNORECASE`), is embedded character by character with the regex
engine's backtracking order: the lazy field group tries the shortest
prefix first; `\s+` is greedy; the operator alternatives are tried in the
order written; the lazy value group tries the shortest non-empty capture
whose remainder matches `['\"]?\s*$`.  The dot does not match a line
break. -/

/-- A quote character, `['\"]`. -/
def isQuoteCh (c : Char) : Bool := c = '\'' || c = '"'

/-- Case-insensitive literal match: the pattern (given lower-case) against
the front of the input, returning the remainder. -/
def matchLitCI : Str → Str → Option Str
  | [], s => some s
  | _ :: _, [] => none
  | p :: ps, c :: cs => if c.toLower = p then matchLitCI ps cs else none

/-- The tail anchor `['\"]?\s*$` as a predicate on the remainder. -/
def endOk (s : Str) : Bool :=
  allWS s ||
    (match s with
     | c :: t => isQuoteCh c && allWS t
     | [] => false)

/-- The lazy value group `(.+?)` followed by `['\"]?\s*$`: the shortest
non-empty prefix (not containing a line break) whose remainder satisfies
the anchor. -/
def valRec : Str → Option Str
  | [] => none
  | c :: rest =>
    if c = '\n' then none
    else if endOk rest then some [c]
    else (valRec rest).map (c :: ·)

/-- The optional opening quote `['\"]?` (greedy) before the value group. -/
def quoteVal (s : Str) : Option Str :=
  match s with
  | c :: t => if isQuoteCh c then (valRec t).orElse (fun _ => valRec s) else valRec s
  | [] => none

/-- Greedy `\s*` before the value group (the remainder of the second
`\s+`), with backtracking: longest whitespace run first. -/
def ms2 : Str → Option Str
  | [] => none
  | c :: t =>
    if isWS c then (ms2 t).orElse (fun _ => quoteVal (c :: t))
    else quoteVal (c :: t)

/-- The second `\s+` (after the operator phrase). -/
def tail2 : Str → Option Str
  | [] => none
  | c :: t => if isWS c then ms2 t else none

/-- One operator alternative: match the phrase literally, then the rest of
the pattern; on failure of either, the engine tries the next
alternative. -/
def tryOneOp (p : Str) (s : Str) : Option (Str × Str) :=
  (matchLitCI p s).bind (fun r => (tail2 r).map (fun v => (p, v)))

/-- The operator alternation, in the order written in the pattern. -/
def tryOps (s : Str) : Option (Str × Str) :=
  (tryOneOp (strL "is not in the group") s).orElse fun _ =>
  (tryOneOp (strL "is in the group") s).orElse fun _ =>
  (tryOneOp (strL "is not") s).orElse fun _ =>
  tryOneOp (strL "is") s

/-- Greedy `\s*` before the operator (the remainder of the first `\s+`),
with backtracking. -/
def msStar : Str → Option (Str × Str)
  | [] => none
  | c :: t =>
    if isWS c then (msStar t).orElse (fun _ => tryOps (c :: t))
    else tryOps (c :: t)

/-- The pattern after the field group: `\s+(op-alternation)...`. -/
def tailMatch : Str → Option (Str × Str)
  | [] => none
  | c :: t => if isWS c then msStar t else none

/-- The lazy field group: try split positions left to right, the consumed
prefix (at least one character, no line break) is the field capture. -/
def scanField (acc : Str) : Str → Option (Str × Str × Str)
  | [] => none
  | c :: rest =>
    if c = '\n' then none
    else
      match tailMatch rest with
      | some (op, v) => some (acc ++ [c], op, v)
      | none => scanField (acc ++ [c]) rest

/-- `re.match` of the clause pattern: field capture, matched operator
phrase (lower-cased, as the code lower-cases it anyway) and value
capture. -/
def matchClause (s : Str) : Option (Str × Str × Str) := scanField [] s

/-- Python `str.strip("'\"")`: drop quote characters from both ends. -/
def stripQuotes (s : Str) : Str :=
  ((s.dropWhile isQuoteCh).reverse.dropWhile isQuoteCh).reverse

/-- A workflow criterion. -/
structure Criterion where
  field : Str
  operator : Str
  values : List Str
deriving DecidableEq, Repr

/-- The loop body of parse_rule_summary for one AND-clause: strip, match
the pattern, strip the captures, drop the clause when the field is not in
FIELD_MAPPINGS (lenient path), map the operator with default `IN`. -/
def matchPart (part0 : Str) : Option Criterion :=
  let part := trimL part0
  if part = [] then none
  else
    match matchClause part with
    | none => none
    | some (g1, op, g3) =>
      let field_name := trimL g1
      let operator_text := lowerS (trimL op)
      let values_text := stripQuotes (trimL g3)
      match FIELD_MAPPINGS.lookup field_name with
      | none => none
      | some mapped_field =>
        let operator :=
          match OPERATOR_MAPPINGS.lookup operator_text with
          | some o => o
          | none => strL "IN"
        some ⟨mapped_field, operator, [values_text]⟩

/-- One split step of `re.split(r'\s+AND\s+', ..., re.IGNORECASE)`: at the
current position, consume a whitespace run, the literal `AND`
(case-insensitively) and a second whitespace run, or fail. -/
def tryANDat (cs : Str) : Option Str :=
  if (cs.dropWhile isWS).length = cs.length then none
  else
    match matchLitCI (strL "and") (cs.dropWhile isWS) with
    | none => none
    | some r2 =>
      if (r2.dropWhile isWS).length = r2.length then none
      else some (r2.dropWhile isWS)

/-- `re.split(r'\s+AND\s+', s, flags=re.IGNORECASE)`: scan left to right,
splitting at every leftmost occurrence of the pattern.  The recursion is
driven by a fuel bounding the remaining length (a successful `tryANDat`
consumes several characters, a failing position consumes one, so any fuel
of at least the remaining length never runs out). -/
def splitANDFuel : Nat → Str → Str → List Str
  | 0, acc, _ => [acc]
  | fuel + 1, acc, rest =>
    match tryANDat rest with
    | some r => acc :: splitANDFuel fuel [] r
    | none =>
      match rest with
      | [] => [acc]
      | c :: t => splitANDFuel fuel (acc ++ [c]) t

def splitAND (s : Str) : List Str := splitANDFuel (s.length + 1) [] s

/-- parse_rule_summary: split the summary on AND, decode each clause. -/
def parse_rule_summary (summary : Str) : List Criterion :=
  if summary = [] then []
  else (splitAND summary).filterMap matchPart

/-- parse_trigger_events: the seven Yes/No trigger columns, in order. -/
def parse_trigger_events (row : Row) : List Str :=
  (if rowGet row "Create Request" = some (.str (strL "Yes")) then [strL "CREATE_REQUEST"] else []) ++
  (if rowGet row "Edit Request" = some (.str (strL "Yes")) then [strL "EDIT_REQUEST"] else []) ++
  (if rowGet row "Extend Request" = some (.str (strL "Yes")) then [strL "EXTEND_REQUEST"] else []) ++
  (if rowGet row "Create Service" = some (.str (strL "Yes")) then [strL "CREATE_SERVICE"] else []) ++
  (if rowGet row "Edit Service" = some (.str (strL "Yes")) then [strL "EDIT_SERVICE"] else []) ++
  (if rowGet row "Extend Service" = some (.str (strL "Yes")) then [strL "EXTEND_SERVICE"] else []) ++
  (if rowGet row "Save Questionnaire" = some (.str (strL "Yes")) then [strL "SAVE_QUESTIONNAIRE"] else [])

/-- createTask action parameters (workflow shape). -/
structure CreateTask where
  taskType : Str
  taskReason : Str
  daysUntilDue : Option Int := none
  taskOwner : Option Str := none
  autoClose : Bool := false
deriving DecidableEq, Repr

/-- The actions a workflow row can produce. -/
structure Actions where
  generateLetters : List Str := []
  createTask : Option CreateTask := none
  transferOwnership : Option Str := none
  createProgram : Option Str := none
deriving DecidableEq, Repr

/-- The Days block of parse_actions: `int(float(row['Days']))` under
`try ... except (ValueError, TypeError): pass`, with the `days > 0` guard.
A caught failure leaves daysUntilDue unset; the uncaught OverflowError of
an infinite value is the `Except.error` case (fatal for the run). -/
def parse_days (row : Row) : Except Str (Option Int) :=
  if is_valid_value (rowGet row "Days") then
    match rowGet row "Days" with
    | some v =>
      match pyFloatInt v with
      | .val d => .ok (if 0 < d then some d else none)
      | .fail => .ok none
      | .overflow => .error (strL "OverflowError")
    | none => .ok none
  else .ok none

/-- The createTask block of parse_actions: built whenever Task Type or
Task Reason is present; only the Days sub-field can raise. -/
def parse_createTask (row : Row) : Except Str (Option CreateTask) :=
  let task_type := rowGet row "Task Type"
  let task_reason := rowGet row "Task Reason"
  if is_valid_value task_type || is_valid_value task_reason then
    let tt := if is_valid_value task_type then
        (match task_type with | some v => trimL (pyStr v) | none => [])
      else []
    let tr := if is_valid_value task_reason then
        (match task_reason with | some v => trimL (pyStr v) | none => [])
      else []
    let owner :=
      if is_valid_value (rowGet row "Task Owner") then
        match rowGet row "Task Owner" with
        | some v => some (trimL (pyStr v))
        | none => none
      else none
    let autoClose :=
      is_valid_value (rowGet row "Auto-Close") &&
        (rowGet row "Auto-Close" == some (.str (strL "Yes")))
    (parse_days row).map (fun days => some ⟨tt, tr, days, owner, autoClose⟩)
  else .ok none

/-- parse_actions of convertWorkflowExcelToJSON.py: column-keyed action
detection; `.ok none` when no action column is populated; `.error` when
the Days parse raises the uncaught OverflowError. -/
def parse_actions (row : Row) : Except Str (Option Actions) :=
  match parse_createTask row with
  | .error e => .error e
  | .ok createTask =>
    let generateLetters :=
      if is_valid_value (rowGet row "Triggered Letter") then
        match rowGet row "Triggered Letter" with
        | some v => [trimL (pyStr v)]
        | none => []
      else []
    let transferOwnership :=
      if is_valid_value (rowGet row "Transfer") &&
          (rowGet row "Transfer" == some (.str (strL "Yes"))) then
        some (if is_valid_value (rowGet row "Task Owner") then
            (match rowGet row "Task Owner" with
             | some v => trimL (pyStr v)
             | none => strL "UNASSIGNED")
          else strL "UNASSIGNED")
      else none
    let createProgram :=
      if is_valid_value (rowGet row "Created Program") then
        match rowGet row "Created Program" with
        | some v => some (trimL (pyStr v))
        | none => none
      else none
    .ok (if generateLetters = [] ∧ createTask = none ∧ transferOwnership = none ∧
        createProgram = none then none
      else some ⟨generateLetters, createTask, transferOwnership, createProgram⟩)

/-- Python `str.upper()`. -/
def upperS (s : Str) : Str := s.map Char.toUpper

/-- One output rule of the workflow converter.  Optional JSON keys that are
added only conditionally are `Option`-valued (`fireOnce` is added only
when true, so a `Bool` carries the same information). -/
structure Rule where
  ruleDesc : Str
  standardFieldCriteria : List Criterion
  isActive : Bool
  weight : Int
  triggerEvents : Option (List Str)
  requestTypeFilter : Option Str
  fireOnce : Bool
  actions : Option Actions
deriving DecidableEq, Repr

/-- The Fire Once parse: `int(float(row['Fire Once'])) == 1` under the
same `except (ValueError, TypeError)`; a caught failure leaves it false,
an infinite value raises the uncaught OverflowError. -/
def parse_fire_once (row : Row) : Except Str Bool :=
  if is_valid_value (rowGet row "Fire Once") then
    match rowGet row "Fire Once" with
    | some v =>
      match pyFloatInt v with
      | .val n => .ok (n == 1)
      | .fail => .ok false
      | .overflow => .error (strL "OverflowError")
    | none => .ok false
  else .ok false

/-- The row loop of the workflow convert_excel_to_json: a row without a
valid Name or a valid Rule Summary is skipped (`.ok none`); every other
row yields a rule (whatever its criteria decode to), with isActive true
and weight 100 — unless the Fire Once or Days parse raises the uncaught
OverflowError, which aborts the whole run (`.error`, nothing written). -/
def convertRow (row : Row) : Except Str (Option Rule) :=
  if ¬is_valid_value (rowGet row "Name") then .ok none
  else if ¬is_valid_value (rowGet row "Rule Summary") then .ok none
  else
    match parse_fire_once row with
    | .error e => .error e
    | .ok fire_once =>
      match parse_actions row with
      | .error e => .error e
      | .ok actions =>
        let standard_criteria :=
          parse_rule_summary (pyStr ((rowGet row "Rule Summary").getD (.str [])))
        let trigger_events := parse_trigger_events row
        let request_type_filter :=
          if is_valid_value (rowGet row "Request Type") then
            match rowGet row "Request Type" with
            | some v =>
              let rt := upperS (trimL (pyStr v))
              if rt = strL "INPATIENT" ∨ rt = strL "OUTPATIENT" then some rt
              else none
            | none => none
          else none
        .ok (some { ruleDesc := trimL (pyStr ((rowGet row "Name").getD (.str []))),
                    standardFieldCriteria := standard_criteria,
                    isActive := true,
                    weight := 100,
                    triggerEvents :=
                      if trigger_events = [] then none else some trigger_events,
                    requestTypeFilter := request_type_filter,
                    fireOnce := fire_once,
                    actions := actions })

/-- The workflow converter's row loop over the whole sheet: skipped rows
contribute nothing, an uncaught exception aborts the run before anything
is written (the caller's `except Exception` returns 1 without reaching
the output write). -/
def convertRows : List Row → Except Str (List Rule)
  | [] => .ok []
  | r :: rest =>
    match convertRow r with
    | .error e => .error e
    | .ok none => convertRows rest
    | .ok (some ru) =>
      match convertRows rest with
      | .error e => .error e
      | .ok rs => .ok (ru :: rs)

def convert_excel_to_json (rows : List Row) : Except Str (List Rule) :=
  convertRows rows

end WF

/-- One complete (field-name, operator, value) triplet of a LUM row's
criteria region, as laid out in consecutive cells. -/
structure Trip where
  f : Str
  o : Str
  v : LUM.Cell
deriving DecidableEq, Repr

/-- The three consecutive cells a triplet occupies. -/
def tripCells (t : Trip) : List LUM.Cell := [some t.f, some t.o, t.v]

/-- The cells of a run of triplets, laid out left to right. -/
def flatTrips : List Trip → List LUM.Cell
  | [] => []
  | t :: ts => tripCells t ++ flatTrips ts

/-- A triplet the scanner can consume without stopping or failing: its
field name is non-empty, not an action-section sentinel and mapped, and
its operator is mapped. -/
def ValidTrip (t : Trip) : Prop :=
  trimL t.f ≠ [] ∧ lowerS (trimL t.f) ∉ LUM.sentinels ∧
  (LUM.FIELD_MAPPINGS.lookup (trimL t.f)).isSome ∧
  (LUM.OPERATOR_MAPPINGS.lookup (trimL t.o)).isSome

/-- The criterion a valid triplet contributes: nothing when its value cell
normalizes to an empty value list, the mapped criterion otherwise. -/
def tripCriterion (t : Trip) : Option LUM.Criterion :=
  (LUM.FIELD_MAPPINGS.lookup (trimL t.f)).bind fun mf =>
    (LUM.OPERATOR_MAPPINGS.lookup (trimL t.o)).bind fun mo =>
      if LUM.split_multi_values t.v = [] then none
      else some ⟨mo, mf, LUM.split_multi_values t.v⟩

/-- A cell on which the triplet scan stops: empty field name or an
action-section sentinel. -/
def StopCell (c : LUM.Cell) : Prop :=
  LUM.normalize_field_name c = [] ∨
    lowerS (LUM.normalize_field_name c) ∈ LUM.sentinels

/-- A TAT row carrying the mandatory columns with representative values,
parameterized by the ACTIVE and WEIGHT cells. -/
def tatRowWith (active weight : Option CellV) : TAT.Row :=
  [("DUE_DATE_AUTO_CALC_RULE_DESC", some (.str (strL "r"))),
   ("ACTIVE", active), ("WEIGHT", weight),
   ("DUE_DATE", some (.num 72)), ("DUE_DATE_UNITS", some (.str (strL "HR"))),
   ("DATE_TO_CALC_FROM", some (.str (strL "NOTIFYDATE")))]

/-- The literal match fails on a character mismatch inside `s` (not by
running out of input). -/
def litFails (p s : Str) : Bool :=
  match p, s with
  | [], _ => false
  | _ :: _, [] => false
  | p1 :: ps, c :: cs => if c.toLower = p1 then litFails ps cs else true

/-- Every operator alternative fails inside `s`. -/
def opsFail (s : Str) : Bool :=
  litFails (strL "is not in the group") s && litFails (strL "is in the group") s &&
    litFails (strL "is not") s && litFails (strL "is") s

/-- The whitespace-then-operator search fails inside `s`. -/
def msStarFail : Str → Bool
  | [] => false
  | c :: t => if isWS c then msStarFail t && opsFail (c :: t) else opsFail (c :: t)

/-- The after-field pattern `\s+(op...)...` fails inside `s`. -/
def tailFail : Str → Bool
  | [] => false
  | c :: t => if isWS c then msStarFail t else true

/-- The lazy field scan walks through all of `pre` without matching, when
the text continues with `K` (and anything after `K`). -/
def walkOk : Str → Str → Bool
  | [], _ => true
  | c :: cs, K => !(c = '\n') && tailFail (cs ++ K) && walkOk cs K

/-! ### Helper lemmas -/

theorem head_dropWhile_not {p : Char → Bool} {l : Str} {c : Char} {t : Str}
    (h : l.dropWhile p = c :: t) : p c = false := by
  induction l with
  | nil => simp [List.dropWhile] at h
  | cons a l ih =>
    simp only [List.dropWhile] at h
    split at h
    · exact ih h
    · cases h
      simp_all

theorem trim_eq_nil_all_ws {l : Str} (h : trimL l = []) : ∀ c ∈ l, isWS c := by
  unfold trimL at h
  rw [List.reverse_eq_nil_iff] at h
  have h2 : ∀ c ∈ (l.dropWhile isWS).reverse, isWS c :=
    List.dropWhile_eq_nil_iff.mp h
  have h3 : ∀ c ∈ l.dropWhile isWS, isWS c := by
    intro c hc; exact h2 c (List.mem_reverse.mpr hc)
  intro c hc
  rw [← List.takeWhile_append_dropWhile (p := isWS) (l := l)] at hc
  rcases List.mem_append.mp hc with h4 | h4
  · exact List.mem_takeWhile_imp h4
  · exact h3 c h4

theorem trim_ne_nil_of_mem_nonws {l : Str} {c : Char} (hc : c ∈ l)
    (hw : isWS c = false) : trimL l ≠ [] := by
  intro h
  have := trim_eq_nil_all_ws h c hc
  simp_all

theorem exists_nonws_of_trim_ne_nil {s : Str} (h : trimL s ≠ []) :
    ∃ c ∈ trimL s, isWS c = false := by
  rcases hb : ((s.dropWhile isWS).reverse.dropWhile isWS) with _ | ⟨c, t⟩
  · exfalso
    apply h
    unfold trimL
    rw [hb]
    rfl
  · refine ⟨c, ?_, head_dropWhile_not hb⟩
    unfold trimL
    rw [hb]
    simp

theorem splitOnCh_ne_nil (sep : Char) (l : Str) : splitOnCh sep l ≠ [] := by
  induction l with
  | nil => simp [splitOnCh]
  | cons a t ih =>
    simp only [splitOnCh]
    split
    · simp
    · rcases h : splitOnCh sep t with _ | ⟨x, xs⟩
      · simp
      · simp

theorem splitOnCh_mem {sep c : Char} {l : Str} (hc : c ∈ l) (hne : c ≠ sep) :
    ∃ part ∈ splitOnCh sep l, c ∈ part := by
  induction l with
  | nil => simp at hc
  | cons a t ih =>
    simp only [splitOnCh]
    rcases List.mem_cons.mp hc with rfl | hct
    · have ha : ¬(c = sep) := hne
      rw [if_neg ha]
      rcases h : splitOnCh sep t with _ | ⟨x, xs⟩
      · exact ⟨[c], by simp⟩
      · exact ⟨c :: x, by simp⟩
    · rcases ih hct with ⟨part, hp, hcp⟩
      split
      · exact ⟨part, by simp [hp], hcp⟩
      · rcases h : splitOnCh sep t with _ | ⟨x, xs⟩
        · rw [h] at hp; simp at hp
        · rw [h] at hp
          rcases List.mem_cons.mp hp with rfl | hptl
          · exact ⟨a :: part, by simp, by simp [hcp]⟩
          · exact ⟨part, by simp [hptl], hcp⟩

/-! ### Claim C6 -/

/-- Claim C6 counterexample: a present but whitespace-only cell is a
concrete input on which the multi-value splitter returns a list containing
the empty string, contradicting "for every present cell the result
contains at least one non-empty string (never an empty string element)". -/
theorem c6_counterexample :
    LUM.split_multi_values (some (strL " ")) = [[]] ∧
    [] ∈ LUM.split_multi_values (some (strL " ")) := by
  constructor <;> decide

/-- Claim C6 (amended): the splitter returns `[]` for an absent cell; a
present cell whose content trims to empty yields the single-element list
containing the empty string; a present cell with some non-whitespace
content yields a non-empty list with no empty-string element, and when the
trimmed content has no embedded line break it is the singleton of the
trimmed string. -/
theorem c6_amended :
    LUM.split_multi_values none = [] ∧
    (∀ s : Str, trimL s = [] → LUM.split_multi_values (some s) = [[]]) ∧
    (∀ s : Str, trimL s ≠ [] → ¬(trimL s).contains '\n' →
       LUM.split_multi_values (some s) = [trimL s]) ∧
    (∀ s : Str, trimL s ≠ [] →
       LUM.split_multi_values (some s) ≠ [] ∧
       ∀ v ∈ LUM.split_multi_values (some s), v ≠ []) := by
  refine ⟨rfl, ?_, ?_, ?_⟩
  · intro s h
    simp [LUM.split_multi_values, h]
  · intro s _ h2
    simp only [LUM.split_multi_values]
    rw [if_neg (by simpa using h2)]
  · intro s h
    simp only [LUM.split_multi_values]
    by_cases hnl : (trimL s).contains '\n'
    · rw [if_pos hnl]
      constructor
      · rcases exists_nonws_of_trim_ne_nil h with ⟨c, hc, hw⟩
        have hcn : c ≠ '\n' := by
          intro hh; rw [hh] at hw; simp [isWS] at hw
        rcases splitOnCh_mem hc hcn with ⟨part, hp, hcp⟩
        have htp : trimL part ≠ [] := trim_ne_nil_of_mem_nonws hcp hw
        have : trimL part ∈
            (((splitOnCh '\n' (trimL s)).map trimL).filter (· ≠ [])) := by
          rw [List.mem_filter]
          exact ⟨List.mem_map_of_mem trimL hp, by simpa using htp⟩
        exact List.ne_nil_of_mem this
      · intro v hv
        have := (List.mem_filter.mp hv).2
        simpa using this
    · rw [if_neg hnl]
      exact ⟨by simp, by intro v hv; simp at hv; simp [hv, h]⟩

/-- Claim C6 amended-theorem witness at concrete inputs. -/
theorem c6_witness :
    LUM.split_multi_values (some (strL "  ")) = [[]] ∧
    LUM.split_multi_values (some (strL " STAT ")) = [strL "STAT"] ∧
    LUM.split_multi_values (some (strL "STAT\nURGENT")) ≠ [] :=
  ⟨c6_amended.2.1 (strL "  ") (by decide),
   by
     have := c6_amended.2.2.1 (strL " STAT ") (by decide) (by decide)
     simpa using this,
   (c6_amended.2.2.2 (strL "STAT\nURGENT") (by decide)).1⟩

/-! ### Claim C5 -/

/-- Claim C5 counterexample: the sentinel set is not shared.  `(null)` is a
valid (present) value for the TAT converter, `*` and `[NULL]` are valid
for the workflow converter, and the LUM splitter treats `*` as a real
value — each a concrete cell on which "every cell whose content is exactly
'*', '[NULL]', '(null)' ... is treated as absent in every one of the
three converters" fails. -/
theorem c5_counterexample :
    TAT.is_valid_value (some (.str (strL "(null)"))) = true ∧
    WF.is_valid_value (some (.str (strL "*"))) = true ∧
    WF.is_valid_value (some (.str (strL "[NULL]"))) = true ∧
    LUM.split_multi_values (some (strL "*")) = [strL "*"] := by
  refine ⟨?_, ?_, ?_, ?_⟩ <;> decide

/-- Claim C5 (amended): each converter has its own absence set.  The TAT
converter treats missing cells, `*`, `[NULL]` and empty/whitespace-only
strings as absent but `(null)` as present; the workflow converter treats
missing cells, `(null)` and empty/whitespace-only strings as absent but
`*` and `[NULL]` as present; the LUM converter treats only missing cells
as absent (`*`, `[NULL]`, `(null)` all become criterion values there). -/
theorem c5_amended :
    TAT.is_valid_value none = false ∧
    TAT.is_valid_value (some (.str (strL "*"))) = false ∧
    TAT.is_valid_value (some (.str (strL "[NULL]"))) = false ∧
    (∀ s : Str, trimL s = [] → TAT.is_valid_value (some (.str s)) = false) ∧
    TAT.is_valid_value (some (.str (strL "(null)"))) = true ∧
    WF.is_valid_value none = false ∧
    WF.is_valid_value (some (.str (strL "(null)"))) = false ∧
    (∀ s : Str, trimL s = [] → WF.is_valid_value (some (.str s)) = false) ∧
    WF.is_valid_value (some (.str (strL "*"))) = true ∧
    WF.is_valid_value (some (.str (strL "[NULL]"))) = true ∧
    LUM.split_multi_values none = [] ∧
    LUM.split_multi_values (some (strL "*")) = [strL "*"] ∧
    LUM.split_multi_values (some (strL "[NULL]")) = [strL "[NULL]"] ∧
    LUM.split_multi_values (some (strL "(null)")) = [strL "(null)"] := by
  refine ⟨by decide, by decide, by decide, ?_, by decide, by decide, by decide,
    ?_, by decide, by decide, by decide, by decide, by decide, by decide⟩
  · intro s h
    simp [TAT.is_valid_value, h]
  · intro s h
    simp [WF.is_valid_value, h]

/-- Claim C5 amended-theorem witness at a concrete whitespace-only cell. -/
theorem c5_witness :
    TAT.is_valid_value (some (.str (strL "   "))) = false ∧
    WF.is_valid_value (some (.str (strL "   "))) = false :=
  ⟨c5_amended.2.2.2.1 (strL "   ") (by decide),
   c5_amended.2.2.2.2.2.2.2.1 (strL "   ") (by decide)⟩

/-! ### Claim C10 -/

/-- Claim C10: in the LUM rule description, the rendered operator text is
"is" exactly for the IN operator, and "is not" for every other operator:
an EQUALS criterion, a NOT_EQUALS criterion and a NOT_IN criterion all
render identically, and a concrete EQUALS criterion is described with the
text "is not". -/
theorem c10_description_operator_text :
    (∀ (f : Str) (vs : List Str) (a : LUM.Actions),
       LUM.generate_rule_description [⟨strL "EQUALS", f, vs⟩] a =
         LUM.generate_rule_description [⟨strL "NOT_EQUALS", f, vs⟩] a ∧
       LUM.generate_rule_description [⟨strL "EQUALS", f, vs⟩] a =
         LUM.generate_rule_description [⟨strL "NOT_IN", f, vs⟩] a) ∧
    LUM.generate_rule_description
        [⟨strL "EQUALS", strL "REQUEST_TYPE", [strL "A"]⟩] {} =
      strL "Request Type is not A → " ∧
    LUM.generate_rule_description
        [⟨strL "IN", strL "REQUEST_TYPE", [strL "A"]⟩] {} =
      strL "Request Type is A → " := by
  refine ⟨?_, by decide, by decide⟩
  intro f vs a
  constructor <;>
    simp [LUM.generate_rule_description, LUM.renderCriterion,
      show (strL "EQUALS" = strL "IN") = False by simp [strL],
      show (strL "NOT_EQUALS" = strL "IN") = False by simp [strL],
      show (strL "NOT_IN" = strL "IN") = False by simp [strL]]

/-! ### Claim C3 -/

theorem getD_append_len {α : Type} (l₁ l₂ : List α) (d : α) (i : Nat) :
    (l₁ ++ l₂).getD (l₁.length + i) d = l₂.getD i d := by
  induction l₁ with
  | nil => simp
  | cons a t ih =>
    simp only [List.cons_append, List.length_cons]
    rw [show t.length + 1 + i = (t.length + i) + 1 by omega]
    simpa using ih

theorem parseGo_spec (tps : List Trip) (pre rest : List LUM.Cell) (rem : Nat)
    (hv : ∀ t ∈ tps, ValidTrip t)
    (hstop : rem ≤ 3 * tps.length + 2 ∨ StopCell (rest.getD 0 none))
    (hlen : 3 * tps.length ≤ rem) :
    LUM.parseTripletsGo (pre ++ (flatTrips tps ++ rest)) pre.length rem =
      .ok (tps.filterMap tripCriterion) := by
  induction tps generalizing pre rem with
  | nil =>
    simp only [flatTrips, List.nil_append, List.filterMap_nil]
    match rem with
    | 0 => rfl
    | 1 => rfl
    | 2 => rfl
    | k + 3 =>
      have hsc : StopCell (rest.getD 0 none) := by
        rcases hstop with h | h
        · simp at h
        · exact h
      simp only [LUM.parseTripletsGo]
      have hfield : (pre ++ rest).getD pre.length none = rest.getD 0 none := by
        have := getD_append_len pre rest none 0
        simpa using this
      rw [if_pos]
      rw [hfield]
      exact hsc
  | cons t tps' ih =>
    have hrem : ∃ k, rem = k + 3 := ⟨rem - 3, by simp [List.length_cons] at hlen; omega⟩
    rcases hrem with ⟨k, rfl⟩
    have hvt := hv t (List.mem_cons_self t tps')
    rcases hvt with ⟨hf1, hf2, hf3, hf4⟩
    rcases hmf : LUM.FIELD_MAPPINGS.lookup (trimL t.f) with _ | mf
    · rw [hmf] at hf3; simp at hf3
    rcases hmo : LUM.OPERATOR_MAPPINGS.lookup (trimL t.o) with _ | mo
    · rw [hmo] at hf4; simp at hf4
    simp only [LUM.parseTripletsGo]
    have hc0 : (pre ++ (flatTrips (t :: tps') ++ rest)).getD pre.length none
        = some t.f := by
      have := getD_append_len pre (flatTrips (t :: tps') ++ rest) none 0
      simp only [Nat.add_zero] at this
      rw [this]
      simp [flatTrips, tripCells]
    have hc1 : (pre ++ (flatTrips (t :: tps') ++ rest)).getD (pre.length + 1) none
        = some t.o := by
      rw [getD_append_len]
      simp [flatTrips, tripCells]
    have hc2 : (pre ++ (flatTrips (t :: tps') ++ rest)).getD (pre.length + 2) none
        = t.v := by
      rw [getD_append_len]
      simp [flatTrips, tripCells]
    rw [hc0, hc1, hc2]
    simp only [LUM.normalize_field_name]
    rw [if_neg (by push_neg; exact ⟨hf1, hf2⟩)]
    rw [hmf, hmo]
    have hrow : pre ++ (flatTrips (t :: tps') ++ rest)
        = (pre ++ tripCells t) ++ (flatTrips tps' ++ rest) := by
      simp [flatTrips, tripCells]
    have hidx : pre.length + 3 = (pre ++ tripCells t).length := by
      simp [tripCells]
    rw [hrow, hidx]
    rw [ih (pre ++ tripCells t) k
      (fun u hu => hv u (List.mem_cons_of_mem t hu))
      (by
        rcases hstop with h | h
        · left; simp [List.length_cons] at h ⊢; omega
        · right; exact h)
      (by simp [List.length_cons] at hlen; omega)]
    simp only [List.filterMap_cons, tripCriterion, hmf, hmo, Option.bind_some]
    split
    · simp_all
    · simp_all

/-- Claim C3: for a LUM row whose criteria region is a run of N complete,
valid triplets followed by a stop cell (empty field name or action-section
sentinel) — or whose boundary leaves fewer than three further cells — the
triplet decoder succeeds and emits exactly the criteria of the triplets
whose value cell normalizes to a non-empty value list, in left-to-right
order; it advances three cells per triplet whether or not a criterion was
emitted and never looks past the stop cell (the cells after the 3N
consumed ones are arbitrary). -/
theorem c3_triplet_scan (tps : List Trip) (rest : List LUM.Cell) (e : Nat)
    (hv : ∀ t ∈ tps, ValidTrip t)
    (hstop : e ≤ 3 * tps.length + 2 ∨ StopCell (rest.getD 0 none))
    (hlen : 3 * tps.length ≤ e) :
    LUM.parse_criteria_triplets (flatTrips tps ++ rest) 0 e =
      .ok (tps.filterMap tripCriterion) := by
  have := parseGo_spec tps [] rest e hv (by simpa using hstop) hlen
  simpa [LUM.parse_criteria_triplets] using this

/-- Claim C3 witness: the spec's concrete scenario — one triplet
`("Urgency", "is any of", "STAT\nURGENT")` with the action boundary at
index 3 and "Reassign to"/"CARDIO" beyond it — decodes to the single IN
criterion on REQUEST_URGENCY with both values. -/
theorem c3_witness :
    LUM.parse_criteria_triplets
        [some (strL "Urgency"), some (strL "is any of"),
         some (strL "STAT\nURGENT"), some (strL "Reassign to"),
         some (strL "CARDIO")] 0 3 =
      .ok [⟨strL "IN", strL "REQUEST_URGENCY", [strL "STAT", strL "URGENT"]⟩] := by
  have h := c3_triplet_scan
    [⟨strL "Urgency", strL "is any of", some (strL "STAT\nURGENT")⟩]
    [some (strL "Reassign to"), some (strL "CARDIO")] 3
    (by intro t ht; simp at ht; subst ht; constructor <;> decide)
    (by left; decide)
    (by decide)
  have heq : flatTrips [⟨strL "Urgency", strL "is any of", some (strL "STAT\nURGENT")⟩]
      ++ [some (strL "Reassign to"), some (strL "CARDIO")]
      = [some (strL "Urgency"), some (strL "is any of"),
         some (strL "STAT\nURGENT"), some (strL "Reassign to"),
         some (strL "CARDIO")] := by decide
  rw [heq] at h
  rw [h]
  decide

/-! ### Claim C2 -/

/-- Claim C2 counterexample: a table whose single row contains a complete
triplet (cells 3..5) with a non-empty, non-sentinel field name `Bad` that
is absent from FIELD_MAPPINGS — yet, because the scan stops at the earlier
empty field-name cell, the conversion succeeds and the output is written
(here: an empty rules list), contradicting "the process terminates with a
non-zero status before any output file is written". -/
theorem c2_counterexample :
    LUM.normalize_field_name
        (([none, some (strL "x"), some (strL "y"), some (strL "Bad"),
           some (strL "is"), some (strL "Z")] : List LUM.Cell).getD 3 none)
      = strL "Bad" ∧
    lowerS (strL "Bad") ∉ LUM.sentinels ∧
    LUM.FIELD_MAPPINGS.lookup (strL "Bad") = none ∧
    LUM.convert_excel_to_json
        [[none, some (strL "x"), some (strL "y"), some (strL "Bad"),
          some (strL "is"), some (strL "Z")]] 6 = .ok [] := by
  refine ⟨by decide, by decide, by decide, by decide⟩

/-- Claim C2 (amended): in the strict triplet strategy, if the triplet scan
of some row fails — that is, reading complete triplets left to right from
column 0 it reaches, before the action boundary and before any empty or
sentinel field-name cell, a triplet with an unmapped field name (or an
unmapped operator) — then the whole conversion aborts with an error, so no
output file is written and no rule from any row (including earlier,
validly-decoded rows) appears in a written file. -/
theorem c2_amended (rows : List (List LUM.Cell)) (b : Nat)
    (h : ∃ r ∈ rows, ∃ e, LUM.parse_criteria_triplets r 0 b = .error e) :
    ∃ e, LUM.convert_excel_to_json rows b = .error e := by
  unfold LUM.convert_excel_to_json
  generalize 0 = i
  induction rows generalizing i with
  | nil => simp at h
  | cons r rest ih =>
    rcases h with ⟨r', hr', e, he⟩
    rcases List.mem_cons.mp hr' with rfl | hmem
    · simp only [LUM.convertRows]
      rw [he]
      exact ⟨e, rfl⟩
    · simp only [LUM.convertRows]
      rcases hp : LUM.parse_criteria_triplets r 0 b with e2 | cs
      · exact ⟨e2, rfl⟩
      · rcases ih ⟨r', hmem, e, he⟩ (i + 1) with ⟨e3, he3⟩
        cases cs with
        | nil => exact ⟨e3, he3⟩
        | cons c cs' =>
          rw [he3]
          exact ⟨e3, rfl⟩

/-- Claim C2 amended-theorem witness: a table whose first row's scan does
reach the unmapped field `Bad` aborts the conversion. -/
theorem c2_witness :
    ∃ e, LUM.convert_excel_to_json
        [[some (strL "Urgency"), some (strL "is any of"), some (strL "STAT"),
          some (strL "Bad"), some (strL "is"), some (strL "Z")]] 6 = .error e :=
  c2_amended _ 6
    ⟨[some (strL "Urgency"), some (strL "is any of"), some (strL "STAT"),
      some (strL "Bad"), some (strL "is"), some (strL "Z")],
     by simp,
     strL "Unknown field name: Bad", by decide⟩

/-! ### Claim C1 -/

theorem length_filterMap_eq_countP {α β : Type} (f : α → Option β)
    (l : List α) : (l.filterMap f).length = l.countP (fun a => (f a).isSome) := by
  induction l with
  | nil => simp
  | cons a t ih =>
    rw [List.filterMap_cons, List.countP_cons]
    rcases h : f a with _ | b
    · simp [h, ih]
    · simp [h, ih]

theorem convertRows_length (rows : List (List LUM.Cell)) (i b : Nat)
    (rs : List LUM.Rule) (h : LUM.convertRows rows i b = .ok rs) :
    rs.length = rows.countP
      (fun r => match LUM.parse_criteria_triplets r 0 b with
                | .ok cs => !cs.isEmpty
                | .error _ => false) := by
  induction rows generalizing i rs with
  | nil =>
    simp only [LUM.convertRows] at h
    cases h
    simp
  | cons r rest ih =>
    simp only [LUM.convertRows] at h
    rw [List.countP_cons]
    rcases hp : LUM.parse_criteria_triplets r 0 b with e | cs
    · rw [hp] at h; exact absurd h (by simp)
    · rw [hp] at h
      cases cs with
      | nil =>
        simp only [List.isEmpty_nil]
        rw [ih (i + 1) rs h]
        simp
      | cons c cs' =>
        rcases hrec : LUM.convertRows rest (i + 1) b with e | rs'
        · rw [hrec] at h; exact absurd h (by simp)
        · rw [hrec] at h
          cases h
          rw [List.length_cons, ih (i + 1) rs' hrec]
          simp

/-- Claim C1 counterexample: rows decoding to an empty criteria list still
contribute a rule in the TAT and workflow converters.  A TAT row with no
criteria column and a workflow row whose Rule Summary decodes to no
criteria (unknown field, lenient skip) each produce exactly one output
rule with empty standardFieldCriteria, contradicting "in every one of the
three converters ... the row contributes zero entries". -/
theorem c1_counterexample :
    (TAT.convert_excel_to_json
        [[("DUE_DATE_AUTO_CALC_RULE_DESC", some (.str (strL "Test rule"))),
          ("ACTIVE", some (.num 1)), ("WEIGHT", some (.num 100)),
          ("DUE_DATE", some (.num 72)),
          ("DUE_DATE_UNITS", some (.str (strL "HR"))),
          ("DATE_TO_CALC_FROM", some (.str (strL "NOTIFYDATE")))]]).map
        (·.standardFieldCriteria) = [[]] ∧
    (WF.convert_excel_to_json
        [[("Name", some (.str (strL "R1"))),
          ("Rule Summary", some (.str (strL "Foobar is 'X'")))]]).map
        (List.map (·.standardFieldCriteria)) = .ok [[]] := by
  constructor <;> decide

theorem wf_convertRow_ok_none {r : WF.Row} (h : WF.convertRow r = .ok none) :
    (WF.is_valid_value (WF.rowGet r "Name") &&
     WF.is_valid_value (WF.rowGet r "Rule Summary")) = false := by
  simp only [WF.convertRow] at h
  by_cases h1 : WF.is_valid_value (WF.rowGet r "Name") = true
  · rw [if_neg (not_not.mpr h1)] at h
    by_cases h2 : WF.is_valid_value (WF.rowGet r "Rule Summary") = true
    · exfalso
      rw [if_neg (not_not.mpr h2)] at h
      rcases hf : WF.parse_fire_once r with e | f
      · rw [hf] at h; exact absurd h (by simp)
      · rw [hf] at h
        rcases ha : WF.parse_actions r with e | a
        · rw [ha] at h; exact absurd h (by simp)
        · rw [ha] at h
          exact absurd h (by simp)
    · rw [Bool.not_eq_true] at h2
      simp [h2]
  · rw [Bool.not_eq_true] at h1
    simp [h1]

theorem wf_convertRow_ok_some {r : WF.Row} {ru : WF.Rule}
    (h : WF.convertRow r = .ok (some ru)) :
    (WF.is_valid_value (WF.rowGet r "Name") &&
     WF.is_valid_value (WF.rowGet r "Rule Summary")) = true := by
  simp only [WF.convertRow] at h
  by_cases h1 : WF.is_valid_value (WF.rowGet r "Name") = true
  · rw [if_neg (not_not.mpr h1)] at h
    by_cases h2 : WF.is_valid_value (WF.rowGet r "Rule Summary") = true
    · simp [h1, h2]
    · rw [if_pos h2] at h
      exact absurd h (by simp)
  · rw [if_pos h1] at h
    exact absurd h (by simp)

theorem wf_convertRows_length (rows : List WF.Row) (rs : List WF.Rule)
    (h : WF.convertRows rows = .ok rs) :
    rs.length = rows.countP
      (fun r => WF.is_valid_value (WF.rowGet r "Name") &&
                WF.is_valid_value (WF.rowGet r "Rule Summary")) := by
  induction rows generalizing rs with
  | nil =>
    simp only [WF.convertRows] at h
    cases h
    simp
  | cons r rest ih =>
    simp only [WF.convertRows] at h
    rw [List.countP_cons]
    rcases hr : WF.convertRow r with e | o
    · rw [hr] at h; exact absurd h (by simp)
    · rw [hr] at h
      cases o with
      | none =>
        rw [wf_convertRow_ok_none hr]
        rw [ih rs h]
        simp
      | some ru =>
        rcases hrec : WF.convertRows rest with e | rs'
        · rw [hrec] at h; exact absurd h (by simp)
        · rw [hrec] at h
          cases h
          rw [List.length_cons, ih rs' hrec, wf_convertRow_ok_some hr]
          simp

/-- Claim C1 (amended): only the LUM converter skips rows whose decoded
criteria list is empty — its accepted-row count is exactly the number of
rows whose triplet scan succeeds with a non-empty criteria list.  The TAT
converter emits one rule per row that converts without an exception,
criteria or not, and the workflow converter, on every run that completes
(no uncaught exception, such as the OverflowError an infinite Days or
Fire Once value raises), emits one rule per row with a valid Name and
Rule Summary, criteria or not. -/
theorem c1_amended :
    (∀ (rows : List (List LUM.Cell)) (b : Nat) (rs : List LUM.Rule),
       LUM.convert_excel_to_json rows b = .ok rs →
       rs.length = rows.countP
         (fun r => match LUM.parse_criteria_triplets r 0 b with
                   | .ok cs => !cs.isEmpty
                   | .error _ => false)) ∧
    (∀ rows : List TAT.Row,
       (TAT.convert_excel_to_json rows).length =
         rows.countP (fun r => (TAT.convert_row_to_tat_rule r).toOption.isSome)) ∧
    (∀ (rows : List WF.Row) (rs : List WF.Rule),
       WF.convert_excel_to_json rows = .ok rs →
       rs.length = rows.countP
         (fun r => WF.is_valid_value (WF.rowGet r "Name") &&
                   WF.is_valid_value (WF.rowGet r "Rule Summary"))) := by
  refine ⟨?_, ?_, ?_⟩
  · intro rows b rs h
    exact convertRows_length rows 0 b rs h
  · intro rows
    exact length_filterMap_eq_countP _ rows
  · intro rows rs h
    exact wf_convertRows_length rows rs h

/-- Claim C1 amended-theorem witness: a two-row LUM table where the first
row decodes to one criterion and the second to none yields exactly one
rule. -/
theorem c1_witness :
    (LUM.convert_excel_to_json
        [[some (strL "Urgency"), some (strL "is any of"), some (strL "STAT")],
         [none, some (strL "x"), some (strL "y")]] 3).map List.length
      = .ok 1 ∧
    (TAT.convert_excel_to_json []).length = 0 ∧
    (WF.convert_excel_to_json
        [[("Name", some (.str (strL "R1"))),
          ("Rule Summary", some (.str (strL "Foobar is 'X'")))],
         [("Name", (none : Option CellV))]]).map List.length = .ok 1 := by
  refine ⟨?_, ?_, ?_⟩
  · have hok : (LUM.convert_excel_to_json
        [[some (strL "Urgency"), some (strL "is any of"), some (strL "STAT")],
         [none, some (strL "x"), some (strL "y")]] 3).isOk = true := by decide
    rcases h : LUM.convert_excel_to_json
        [[some (strL "Urgency"), some (strL "is any of"), some (strL "STAT")],
         [none, some (strL "x"), some (strL "y")]] 3 with e | rs
    · rw [h] at hok
      simp [Except.isOk, Except.toBool] at hok
    · simp only [Except.map]
      rw [c1_amended.1 _ 3 rs h]
      decide
  · rw [c1_amended.2.1 []]
    decide
  · have hok : (WF.convert_excel_to_json
        [[("Name", some (.str (strL "R1"))),
          ("Rule Summary", some (.str (strL "Foobar is 'X'")))],
         [("Name", (none : Option CellV))]]).isOk = true := by decide
    rcases h : WF.convert_excel_to_json
        [[("Name", some (.str (strL "R1"))),
          ("Rule Summary", some (.str (strL "Foobar is 'X'")))],
         [("Name", (none : Option CellV))]] with e | rs
    · rw [h] at hok
      simp [Except.isOk, Except.toBool] at hok
    · simp only [Except.map]
      rw [c1_amended.2.2 _ rs h]
      decide

/-! ### Claim C7 -/

theorem except_map_ok {ε α β : Type} {f : Except ε α} {r : α} (g : α → β)
    (h : f = .ok r) : f.map g = .ok (g r) := by rw [h]; rfl

/-- Claim C8 counterexample: a TAT row that provides no explicit active
flag (the ACTIVE cell is missing) and no weight still produces a rule, and
its isActive is false, not the documented default true (`NaN == 1` is
false in Python). -/
theorem c8_counterexample :
    (TAT.convert_excel_to_json [tatRowWith none none]).map (·.isActive)
      = [false] := by
  decide

theorem wf_rule_defaults (row : WF.Row) (ru : WF.Rule)
    (h : WF.convertRow row = .ok (some ru)) :
    ru.isActive = true ∧ ru.weight = 100 := by
  simp only [WF.convertRow] at h
  by_cases h1 : WF.is_valid_value (WF.rowGet row "Name") = true
  · rw [if_neg (not_not.mpr h1)] at h
    by_cases h2 : WF.is_valid_value (WF.rowGet row "Rule Summary") = true
    · rw [if_neg (not_not.mpr h2)] at h
      rcases hf : WF.parse_fire_once row with e | f
      · rw [hf] at h; exact absurd h (by simp)
      · rw [hf] at h
        rcases ha : WF.parse_actions row with e | a
        · rw [ha] at h; exact absurd h (by simp)
        · rw [ha] at h
          injection h with h3
          injection h3 with h4
          rw [← h4]
          exact ⟨rfl, rfl⟩
    · rw [if_pos h2] at h
      exact absurd h (by simp)
  · rw [if_pos h1] at h
    exact absurd h (by simp)

theorem lum_rule_defaults (rows : List (List LUM.Cell)) (i b : Nat)
    (rs : List LUM.Rule) (h : LUM.convertRows rows i b = .ok rs) :
    ∀ ru ∈ rs, ru.isActive = true ∧ ru.weight = 100 := by
  induction rows generalizing i rs with
  | nil =>
    simp only [LUM.convertRows] at h
    cases h
    simp
  | cons r rest ih =>
    simp only [LUM.convertRows] at h
    rcases hp : LUM.parse_criteria_triplets r 0 b with e | cs
    · rw [hp] at h; exact absurd h (by simp)
    · rw [hp] at h
      cases cs with
      | nil => exact ih (i + 1) rs h
      | cons c cs' =>
        rcases hrec : LUM.convertRows rest (i + 1) b with e | rs'
        · rw [hrec] at h; exact absurd h (by simp)
        · rw [hrec] at h
          cases h
          intro ru hru
          rcases List.mem_cons.mp hru with rfl | hmem
          · exact ⟨rfl, rfl⟩
          · exact ih (i + 1) rs' hrec ru hmem

/-- Claim C8 (amended): every rule emitted by the LUM converter and by the
workflow converter has isActive true and weight 100.  In the TAT converter
the weight defaults to 100 when WEIGHT is missing, but a missing ACTIVE
flag yields isActive false, not true: isActive is true only when the
ACTIVE cell is the number 1. -/
theorem c8_amended :
    (∀ (rows : List (List LUM.Cell)) (b : Nat) (rs : List LUM.Rule),
       LUM.convert_excel_to_json rows b = .ok rs →
       ∀ ru ∈ rs, ru.isActive = true ∧ ru.weight = 100) ∧
    (∀ (row : WF.Row) (ru : WF.Rule), WF.convertRow row = .ok (some ru) →
       ru.isActive = true ∧ ru.weight = 100) ∧
    (TAT.convert_excel_to_json [tatRowWith none none]).map
        (fun r => (r.isActive, r.weight)) = [(false, 100)] ∧
    (TAT.convert_excel_to_json [tatRowWith (some (.num 1)) none]).map
        (fun r => (r.isActive, r.weight)) = [(true, 100)] := by
  refine ⟨?_, wf_rule_defaults, by decide, by decide⟩
  intro rows b rs h
  exact lum_rule_defaults rows 0 b rs h

/-- Claim C8 amended-theorem witness: a concrete emitted LUM rule and a
concrete emitted workflow rule carry the defaults. -/
theorem c8_witness :
    (∀ ru ∈ ([{ code := strL "LUM001",
                ruleDesc := LUM.generate_rule_description
                  [⟨strL "IN", strL "REQUEST_URGENCY", [strL "STAT"]⟩]
                  (LUM.parse_actions
                    [some (strL "Urgency"), some (strL "is any of"),
                     some (strL "STAT")] 3),
                standardFieldCriteria :=
                  [⟨strL "IN", strL "REQUEST_URGENCY", [strL "STAT"]⟩],
                customFieldCriteria := [],
                isActive := true,
                weight := 100,
                actions := LUM.parse_actions
                  [some (strL "Urgency"), some (strL "is any of"),
                   some (strL "STAT")] 3 }] : List LUM.Rule),
       ru.isActive = true ∧ ru.weight = 100) := by
  have h : LUM.convert_excel_to_json
      [[some (strL "Urgency"), some (strL "is any of"), some (strL "STAT")]] 3
      = .ok [{ code := strL "LUM001",
               ruleDesc := LUM.generate_rule_description
                 [⟨strL "IN", strL "REQUEST_URGENCY", [strL "STAT"]⟩]
                 (LUM.parse_actions
                   [some (strL "Urgency"), some (strL "is any of"),
                    some (strL "STAT")] 3),
               standardFieldCriteria :=
                 [⟨strL "IN", strL "REQUEST_URGENCY", [strL "STAT"]⟩],
               customFieldCriteria := [],
               isActive := true,
               weight := 100,
               actions := LUM.parse_actions
                 [some (strL "Urgency"), some (strL "is any of"),
                  some (strL "STAT")] 3 }] := by decide
  exact c8_amended.1 _ 3 _ h

/-! ### Claim C9 -/

/-- Claim C9: in the LUM keyword-driven action decoder, for a row whose
action cell is "Task Type" (so the task branch runs, with the scanning
loop resolving task-type, task-reason and day count): if no task-type is
resolved, no createTask action — indeed no action at all — is emitted; if
a task-type is resolved but no task-reason, taskReason is exactly
"Review Required"; and if no day count was extracted, daysUntilDue is
exactly 3. -/
theorem c9_task_action_defaults (row : List LUM.Cell) (start : Nat)
    (h : LUM.normalize_field_name (row.getD start none) = strL "Task Type") :
    ((LUM.scanTask (row.drop (start + 1)) [] [] none).1 = [] →
       LUM.parse_actions row start = {}) ∧
    ((LUM.scanTask (row.drop (start + 1)) [] [] none).1 ≠ [] →
     (LUM.scanTask (row.drop (start + 1)) [] [] none).2.1 = [] →
       (LUM.parse_actions row start).createTask.map (·.taskReason)
         = some (strL "Review Required")) ∧
    ((LUM.scanTask (row.drop (start + 1)) [] [] none).1 ≠ [] →
     (LUM.scanTask (row.drop (start + 1)) [] [] none).2.2 = none →
       (LUM.parse_actions row start).createTask.map (·.daysUntilDue)
         = some 3) := by
  simp only [LUM.parse_actions, h]
  rw [if_neg (show ¬(strL "Task Type" = strL "Reassign to") from by decide)]
  simp only [if_pos rfl, if_true, eq_self_iff_true]
  refine ⟨?_, ?_, ?_⟩
  · intro h1
    rw [if_pos h1]
  · intro h1 h2
    rw [if_neg h1, if_pos h2]
    rfl
  · intro h1 h3
    rw [if_neg h1, h3]
    rfl

/-- Claim C9 witness: concrete rows exercising all three defaults — a task
row with no resolvable task-type emits no action, and a task row resolving
only the task type gets taskReason "Review Required" and daysUntilDue 3. -/
theorem c9_witness :
    LUM.parse_actions [some (strL "Task Type")] 0 = {} ∧
    (LUM.parse_actions
        [some (strL "Task Type"), some (strL "Task Type"),
         some (strL "Clinical Review")] 0).createTask.map (·.taskReason)
      = some (strL "Review Required") ∧
    (LUM.parse_actions
        [some (strL "Task Type"), some (strL "Task Type"),
         some (strL "Clinical Review")] 0).createTask.map (·.daysUntilDue)
      = some 3 :=
  ⟨(c9_task_action_defaults [some (strL "Task Type")] 0 (by decide)).1 (by decide),
   (c9_task_action_defaults
      [some (strL "Task Type"), some (strL "Task Type"),
       some (strL "Clinical Review")] 0 (by decide)).2.1 (by decide) (by decide),
   (c9_task_action_defaults
      [some (strL "Task Type"), some (strL "Task Type"),
       some (strL "Clinical Review")] 0 (by decide)).2.2 (by decide) (by decide)⟩
/-! ### Claim C4 -/

theorem valRec_cons (c : Char) (rest : Str) :
    WF.valRec (c :: rest) =
      if c = '\n' then none
      else if WF.endOk rest = true then some [c]
      else (WF.valRec rest).map (c :: ·) := rfl

theorem quoteVal_cons (c : Char) (t : Str) :
    WF.quoteVal (c :: t) =
      if WF.isQuoteCh c = true then (WF.valRec t).orElse (fun _ => WF.valRec (c :: t))
      else WF.valRec (c :: t) := rfl

theorem ms2_cons (c : Char) (t : Str) :
    WF.ms2 (c :: t) =
      if isWS c = true then (WF.ms2 t).orElse (fun _ => WF.quoteVal (c :: t))
      else WF.quoteVal (c :: t) := rfl

theorem tail2_cons (c : Char) (t : Str) :
    WF.tail2 (c :: t) = if isWS c = true then WF.ms2 t else none := rfl

theorem msStar_cons (c : Char) (t : Str) :
    WF.msStar (c :: t) =
      if isWS c = true then (WF.msStar t).orElse (fun _ => WF.tryOps (c :: t))
      else WF.tryOps (c :: t) := rfl

theorem tailMatch_cons (c : Char) (t : Str) :
    WF.tailMatch (c :: t) = if isWS c = true then WF.msStar t else none := rfl

theorem scanField_cons (acc : Str) (c : Char) (rest : Str) :
    WF.scanField acc (c :: rest) =
      if c = '\n' then none
      else
        match WF.tailMatch rest with
        | some (op, v) => some (acc ++ [c], op, v)
        | none => WF.scanField (acc ++ [c]) rest := rfl

theorem allWS_concat_quote (l : Str) : allWS (l ++ ['\'']) = false := by
  simp [allWS, List.all_append, isWS]

theorem endOk_concat_ne {xs : Str} (h : xs ≠ []) :
    WF.endOk (xs ++ ['\'']) = false := by
  cases xs with
  | nil => exact absurd rfl h
  | cons y ys =>
    have h1 : allWS ((y :: ys) ++ ['\'']) = false := allWS_concat_quote _
    have h2 : allWS (ys ++ ['\'']) = false := allWS_concat_quote _
    simp only [WF.endOk, List.cons_append] at h1 h2 ⊢
    rw [h1, h2]
    simp

theorem valRec_concat_quote (X : Str) (h1 : X ≠ []) (h2 : '\n' ∉ X) :
    WF.valRec (X ++ ['\'']) = some X := by
  induction X with
  | nil => exact absurd rfl h1
  | cons x xs ih =>
    have hx : x ≠ '\n' := by
      intro hh; exact h2 (hh ▸ List.mem_cons_self x xs)
    rw [List.cons_append, valRec_cons, if_neg hx]
    cases xs with
    | nil =>
      rw [List.nil_append, show WF.endOk ['\''] = true from by decide]
      simp
    | cons y ys =>
      rw [endOk_concat_ne (show (y :: ys : Str) ≠ [] from by simp)]
      rw [ih (by simp) (fun hm => h2 (List.mem_cons_of_mem x hm))]
      simp

theorem tail2_quoted (X : Str) (h1 : X ≠ []) (h2 : '\n' ∉ X) :
    WF.tail2 (' ' :: '\'' :: (X ++ ['\''])) = some X := by
  rw [tail2_cons, if_pos (show isWS ' ' = true from rfl)]
  rw [ms2_cons, if_neg (show ¬(isWS '\'' = true) from by decide)]
  rw [quoteVal_cons, if_pos (show WF.isQuoteCh '\'' = true from rfl)]
  rw [valRec_concat_quote X h1 h2]
  rfl

theorem matchLitCI_append {p s t : Str} (h : WF.matchLitCI p s = some t)
    (r : Str) : WF.matchLitCI p (s ++ r) = some (t ++ r) := by
  induction p generalizing s with
  | nil =>
    simp only [WF.matchLitCI] at h ⊢
    cases h
    rfl
  | cons a ps ih =>
    cases s with
    | nil => simp [WF.matchLitCI] at h
    | cons c cs =>
      simp only [WF.matchLitCI, List.cons_append] at h ⊢
      split at h
      · rename_i hc
        rw [if_pos hc]
        exact ih h
      · exact absurd h (by simp)

theorem tryOps_isnotgroup (X : Str) (h1 : X ≠ []) (h2 : '\n' ∉ X) :
    WF.tryOps (strL "is not in the group '" ++ (X ++ ['\''])) =
      some (strL "is not in the group", X) := by
  have hm : WF.matchLitCI (strL "is not in the group")
      (strL "is not in the group '" ++ (X ++ ['\''])) =
      some (strL " '" ++ (X ++ ['\''])) :=
    matchLitCI_append (show WF.matchLitCI (strL "is not in the group")
      (strL "is not in the group '") = some (strL " '") from by decide) _
  have ht : WF.tail2 (strL " '" ++ (X ++ ['\''])) = some X := by
    rw [show strL " '" ++ (X ++ ['\'']) = ' ' :: '\'' :: (X ++ ['\'']) from rfl]
    exact tail2_quoted X h1 h2
  simp only [WF.tryOps, WF.tryOneOp]
  rw [hm]
  simp only [Option.some_bind]
  rw [ht]
  rfl

theorem tailMatch_isnotgroup (X : Str) (h1 : X ≠ []) (h2 : '\n' ∉ X) :
    WF.tailMatch (' ' :: (strL "is not in the group '" ++ (X ++ ['\'']))) =
      some (strL "is not in the group", X) := by
  rw [tailMatch_cons, if_pos (show isWS ' ' = true from rfl)]
  rw [show strL "is not in the group '" ++ (X ++ ['\'']) =
    'i' :: (strL "s not in the group '" ++ (X ++ ['\''])) from rfl]
  rw [msStar_cons, if_neg (show ¬(isWS 'i' = true) from by decide)]
  rw [show ('i' : Char) :: (strL "s not in the group '" ++ (X ++ ['\''])) =
    strL "is not in the group '" ++ (X ++ ['\'']) from rfl]
  exact tryOps_isnotgroup X h1 h2

theorem litFails_sound {p s : Str} (h : litFails p s = true) (r : Str) :
    WF.matchLitCI p (s ++ r) = none := by
  induction p generalizing s with
  | nil => simp [litFails] at h
  | cons a ps ih =>
    cases s with
    | nil => simp [litFails] at h
    | cons c cs =>
      simp only [litFails] at h
      simp only [List.cons_append, WF.matchLitCI]
      split at h
      · rename_i hc
        rw [if_pos hc]
        exact ih h
      · rename_i hc
        rw [if_neg hc]

theorem opsFail_sound {s : Str} (h : opsFail s = true) (r : Str) :
    WF.tryOps (s ++ r) = none := by
  simp only [opsFail, Bool.and_eq_true] at h
  obtain ⟨⟨⟨h1, h2⟩, h3⟩, h4⟩ := h
  simp only [WF.tryOps, WF.tryOneOp]
  rw [litFails_sound h1 r, litFails_sound h2 r, litFails_sound h3 r,
    litFails_sound h4 r]
  rfl

theorem msStarFail_sound {s : Str} (h : msStarFail s = true) (r : Str) :
    WF.msStar (s ++ r) = none := by
  induction s with
  | nil => simp [msStarFail] at h
  | cons c t ih =>
    simp only [msStarFail] at h
    simp only [List.cons_append, msStar_cons]
    by_cases hc : isWS c = true
    · rw [if_pos hc] at h
      simp only [Bool.and_eq_true] at h
      rw [if_pos hc, ih h.1]
      have := opsFail_sound h.2 r
      simp only [List.cons_append] at this
      rw [this]
      rfl
    · rw [if_neg hc] at h
      rw [if_neg hc]
      have := opsFail_sound h r
      simp only [List.cons_append] at this
      exact this

theorem tailFail_sound {s : Str} (h : tailFail s = true) (r : Str) :
    WF.tailMatch (s ++ r) = none := by
  cases s with
  | nil => simp [tailFail] at h
  | cons c t =>
    simp only [tailFail] at h
    simp only [List.cons_append, tailMatch_cons]
    by_cases hc : isWS c = true
    · rw [if_pos hc] at h
      rw [if_pos hc]
      exact msStarFail_sound h r
    · rw [if_neg hc]

theorem scan_walk (pre : Str) (K r acc : Str) (h : walkOk pre K = true) :
    WF.scanField acc (pre ++ (K ++ r)) = WF.scanField (acc ++ pre) (K ++ r) := by
  induction pre generalizing acc with
  | nil => simp
  | cons c cs ih =>
    simp only [walkOk, Bool.and_eq_true] at h
    obtain ⟨⟨hc, hf⟩, hw⟩ := h
    simp only [List.cons_append, scanField_cons]
    rw [if_neg (by simpa using hc)]
    have ht : WF.tailMatch (cs ++ (K ++ r)) = none := by
      have := tailFail_sound hf r
      simpa [List.append_assoc] using this
    rw [ht]
    rw [ih (acc ++ [c]) hw]
    simp

theorem matchClause_isnotgroup (f0 : Str) (c : Char) (X : Str)
    (hw : walkOk f0 (c :: ' ' :: strL "is not in the group '") = true)
    (hc : c ≠ '\n')
    (h1 : X ≠ []) (h2 : '\n' ∉ X) :
    WF.matchClause
        ((f0 ++ [c]) ++ (strL " is not in the group '" ++ (X ++ ['\'']))) =
      some (f0 ++ [c], strL "is not in the group", X) := by
  unfold WF.matchClause
  have hre : (f0 ++ [c]) ++ (strL " is not in the group '" ++ (X ++ ['\''])) =
      f0 ++ ((c :: ' ' :: strL "is not in the group '") ++ (X ++ ['\''])) := by
    rw [show strL " is not in the group '" =
      ' ' :: strL "is not in the group '" from rfl]
    simp
  rw [hre]
  rw [scan_walk f0 _ _ [] hw]
  rw [show (c :: ' ' :: strL "is not in the group '") ++ (X ++ ['\'']) =
      c :: (' ' :: (strL "is not in the group '" ++ (X ++ ['\'']))) from rfl]
  rw [scanField_cons, if_neg hc]
  rw [tailMatch_isnotgroup X h1 h2]
  simp

theorem headD_append {l : Str} (r : Str) (d : Char) (h : l ≠ []) :
    (l ++ r).headD d = l.headD d := by
  cases l with
  | nil => exact absurd rfl h
  | cons c t => rfl

theorem dropWhile_eq_self_of_headD {p : Char → Bool} {l : Str}
    (h : p (l.headD 'a') = false) : l.dropWhile p = l := by
  cases l with
  | nil => rfl
  | cons c t =>
    simp only [List.headD_cons] at h
    simp [List.dropWhile, h]

theorem headD_reverse (l : Str) (d : Char) :
    l.reverse.headD d = l.getLastD d := by
  cases hl : l.reverse with
  | nil =>
    have : l = [] := by simpa using congrArg List.reverse hl
    simp [this]
  | cons c t =>
    have hl2 : l = t.reverse ++ [c] := by
      have := congrArg List.reverse hl
      simpa using this
    rw [hl2]
    simp [List.getLastD_concat]

theorem trim_eq_self {l : Str} (hh : isWS (l.headD 'a') = false)
    (hl : isWS (l.getLastD 'a') = false) : trimL l = l := by
  unfold trimL
  rw [dropWhile_eq_self_of_headD hh]
  rw [dropWhile_eq_self_of_headD (by rw [headD_reverse]; exact hl)]
  exact List.reverse_reverse l

theorem stripQuotes_eq_self {l : Str} (hh : WF.isQuoteCh (l.headD 'a') = false)
    (hl : WF.isQuoteCh (l.getLastD 'a') = false) : WF.stripQuotes l = l := by
  unfold WF.stripQuotes
  rw [dropWhile_eq_self_of_headD hh]
  rw [dropWhile_eq_self_of_headD (by rw [headD_reverse]; exact hl)]
  exact List.reverse_reverse l

theorem matchPart_isnotgroup (f0 : Str) (c : Char) (mf : Str) (X : Str)
    (hw : walkOk f0 (c :: ' ' :: strL "is not in the group '") = true)
    (hc : c ≠ '\n')
    (hhd : isWS ((f0 ++ [c]).headD 'a') = false)
    (htrimf : trimL (f0 ++ [c]) = f0 ++ [c])
    (hlk : WF.FIELD_MAPPINGS.lookup (f0 ++ [c]) = some mf)
    (hX1 : X ≠ []) (hXnl : '\n' ∉ X)
    (hXh : isWS (X.headD 'a') = false)
    (hXhq : WF.isQuoteCh (X.headD 'a') = false)
    (hXl : isWS (X.getLastD 'a') = false)
    (hXlq : WF.isQuoteCh (X.getLastD 'a') = false) :
    WF.matchPart ((f0 ++ [c]) ++ (strL " is not in the group '" ++ (X ++ ['\'']))) =
      some ⟨mf, strL "NOT_IN", [X]⟩ := by
  have hne : (f0 ++ [c]) ++ (strL " is not in the group '" ++ (X ++ ['\''])) ≠ [] := by
    simp
  have whole_trim :
      trimL ((f0 ++ [c]) ++ (strL " is not in the group '" ++ (X ++ ['\'']))) =
        (f0 ++ [c]) ++ (strL " is not in the group '" ++ (X ++ ['\''])) := by
    apply trim_eq_self
    · rw [headD_append _ 'a' (by simp)]
      exact hhd
    · rw [show (f0 ++ [c]) ++ (strL " is not in the group '" ++ (X ++ ['\''])) =
        ((f0 ++ [c]) ++ (strL " is not in the group '" ++ X)) ++ ['\''] from by simp]
      rw [List.getLastD_concat]
      decide
  simp only [WF.matchPart]
  rw [whole_trim]
  rw [if_neg hne]
  rw [matchClause_isnotgroup f0 c X hw hc hX1 hXnl]
  simp only
  rw [htrimf, hlk]
  simp only
  rw [show lowerS (trimL (strL "is not in the group")) =
    strL "is not in the group" from by decide]
  rw [show WF.OPERATOR_MAPPINGS.lookup (strL "is not in the group") =
    some (strL "NOT_IN") from by decide]
  rw [trim_eq_self hXh hXl, stripQuotes_eq_self hXhq hXlq]

/-- Claim C4: a summary clause of the form `<field> is not in the group '<X>'`
with `<field>` in the field mapping table decodes to the mapped field with
operator NOT_IN and values `[X]` (quotes stripped): the alternation tries
the longest operator phrase first, so "is not in the group" is never
shadowed by "is not" or "is", and the lazy field capture stops at the
field, never absorbing part of the operator phrase.  `X` is any non-empty
quoted value with no line break and no whitespace or quote character at
its ends. -/
theorem c4_operator_precedence (f mf : Str)
    (hmem : (f, mf) ∈ WF.FIELD_MAPPINGS)
    (X : Str) (hX1 : X ≠ []) (hXnl : '\n' ∉ X)
    (hXh : isWS (X.headD 'a') = false)
    (hXhq : WF.isQuoteCh (X.headD 'a') = false)
    (hXl : isWS (X.getLastD 'a') = false)
    (hXlq : WF.isQuoteCh (X.getLastD 'a') = false) :
    WF.matchPart (f ++ (strL " is not in the group '" ++ (X ++ ['\'']))) =
      some ⟨mf, strL "NOT_IN", [X]⟩ := by
  fin_cases hmem
  · rw [show strL "Member client" = strL "Member clien" ++ ['t'] from by decide]
    exact matchPart_isnotgroup (strL "Member clien") 't' _ X (by decide) (by decide)
      (by decide) (by decide) (by decide) hX1 hXnl hXh hXhq hXl hXlq
  · rw [show strL "Review Type" = strL "Review Typ" ++ ['e'] from by decide]
    exact matchPart_isnotgroup (strL "Review Typ") 'e' _ X (by decide) (by decide)
      (by decide) (by decide) (by decide) hX1 hXnl hXh hXhq hXl hXlq
  · rw [show strL "Treatment type" = strL "Treatment typ" ++ ['e'] from by decide]
    exact matchPart_isnotgroup (strL "Treatment typ") 'e' _ X (by decide) (by decide)
      (by decide) (by decide) (by decide) hX1 hXnl hXh hXhq hXl hXlq
  · rw [show strL "Urgency" = strL "Urgenc" ++ ['y'] from by decide]
    exact matchPart_isnotgroup (strL "Urgenc") 'y' _ X (by decide) (by decide)
      (by decide) (by decide) (by decide) hX1 hXnl hXh hXhq hXl hXlq
  · rw [show strL "Outcome Status Reason" = strL "Outcome Status Reaso" ++ ['n'] from by decide]
    exact matchPart_isnotgroup (strL "Outcome Status Reaso") 'n' _ X (by decide) (by decide)
      (by decide) (by decide) (by decide) hX1 hXnl hXh hXhq hXl hXlq
  · rw [show strL "Request Bed Type" = strL "Request Bed Typ" ++ ['e'] from by decide]
    exact matchPart_isnotgroup (strL "Request Bed Typ") 'e' _ X (by decide) (by decide)
      (by decide) (by decide) (by decide) hX1 hXnl hXh hXhq hXl hXlq
  · rw [show strL "Source System" = strL "Source Syste" ++ ['m'] from by decide]
    exact matchPart_isnotgroup (strL "Source Syste") 'm' _ X (by decide) (by decide)
      (by decide) (by decide) (by decide) hX1 hXnl hXh hXhq hXl hXlq
  · rw [show strL "CID" = strL "CI" ++ ['D'] from by decide]
    exact matchPart_isnotgroup (strL "CI") 'D' _ X (by decide) (by decide)
      (by decide) (by decide) (by decide) hX1 hXnl hXh hXhq hXl hXlq
  · rw [show strL "Member Group ID" = strL "Member Group I" ++ ['D'] from by decide]
    exact matchPart_isnotgroup (strL "Member Group I") 'D' _ X (by decide) (by decide)
      (by decide) (by decide) (by decide) hX1 hXnl hXh hXhq hXl hXlq
  · rw [show strL "Request Type" = strL "Request Typ" ++ ['e'] from by decide]
    exact matchPart_isnotgroup (strL "Request Typ") 'e' _ X (by decide) (by decide)
      (by decide) (by decide) (by decide) hX1 hXnl hXh hXhq hXl hXlq
  · rw [show strL "Member State" = strL "Member Stat" ++ ['e'] from by decide]
    exact matchPart_isnotgroup (strL "Member Stat") 'e' _ X (by decide) (by decide)
      (by decide) (by decide) (by decide) hX1 hXnl hXh hXhq hXl hXlq
  · rw [show strL "Treatment Type" = strL "Treatment Typ" ++ ['e'] from by decide]
    exact matchPart_isnotgroup (strL "Treatment Typ") 'e' _ X (by decide) (by decide)
      (by decide) (by decide) (by decide) hX1 hXnl hXh hXhq hXl hXlq
  · rw [show strL "LOB" = strL "LO" ++ ['B'] from by decide]
    exact matchPart_isnotgroup (strL "LO") 'B' _ X (by decide) (by decide)
      (by decide) (by decide) (by decide) hX1 hXnl hXh hXhq hXl hXlq
  · rw [show strL "Plan" = strL "Pla" ++ ['n'] from by decide]
    exact matchPart_isnotgroup (strL "Pla") 'n' _ X (by decide) (by decide)
      (by decide) (by decide) (by decide) hX1 hXnl hXh hXhq hXl hXlq
  · rw [show strL "Service Code" = strL "Service Cod" ++ ['e'] from by decide]
    exact matchPart_isnotgroup (strL "Service Cod") 'e' _ X (by decide) (by decide)
      (by decide) (by decide) (by decide) hX1 hXnl hXh hXhq hXl hXlq
  · rw [show strL "Diagnosis Code" = strL "Diagnosis Cod" ++ ['e'] from by decide]
    exact matchPart_isnotgroup (strL "Diagnosis Cod") 'e' _ X (by decide) (by decide)
      (by decide) (by decide) (by decide) hX1 hXnl hXh hXhq hXl hXlq
  · rw [show strL "Task Type" = strL "Task Typ" ++ ['e'] from by decide]
    exact matchPart_isnotgroup (strL "Task Typ") 'e' _ X (by decide) (by decide)
      (by decide) (by decide) (by decide) hX1 hXnl hXh hXhq hXl hXlq
  · rw [show strL "Task Reason" = strL "Task Reaso" ++ ['n'] from by decide]
    exact matchPart_isnotgroup (strL "Task Reaso") 'n' _ X (by decide) (by decide)
      (by decide) (by decide) (by decide) hX1 hXnl hXh hXhq hXl hXlq
  · rw [show strL "Task Outcome" = strL "Task Outcom" ++ ['e'] from by decide]
    exact matchPart_isnotgroup (strL "Task Outcom") 'e' _ X (by decide) (by decide)
      (by decide) (by decide) (by decide) hX1 hXnl hXh hXhq hXl hXlq


/-- Claim C4 witness: the concrete clause of the spec's scenario family,
`Member client is not in the group 'All Clients (NO BUPA)'`, decodes to
NOT_IN on MEMBER_CLIENT with the single quoted value. -/
theorem c4_witness :
    WF.matchPart (strL "Member client is not in the group 'All Clients (NO BUPA)'") =
      some ⟨strL "MEMBER_CLIENT", strL "NOT_IN", [strL "All Clients (NO BUPA)"]⟩ := by
  rw [show strL "Member client is not in the group 'All Clients (NO BUPA)'" =
    strL "Member client" ++
      (strL " is not in the group '" ++ (strL "All Clients (NO BUPA)" ++ ['\''])) from
    by decide]
  exact c4_operator_precedence (strL "Member client") (strL "MEMBER_CLIENT")
    (by decide) (strL "All Clients (NO BUPA)") (by decide) (by decide)
    (by decide) (by decide) (by decide) (by decide)
